import Mathlib

/-!
Verification of the vivid-valid email validation engine.

The JavaScript sources under `backend/src/validators/` are shallowly embedded
here.  Strings are modelled as `List Char` (the ASCII fragment of JavaScript
strings; all corpora and all inputs exercised by the claims are ASCII).
Network I/O (DNS, sockets) is modelled by an explicit environment of oracle
functions returning `Except`-values (an exception-throwing semantics); the
wall clock is a number supplied by the environment.  The external `punycode`
library is modelled by its behaviour on ASCII input (the identity); no settled
claim depends on non-ASCII domains.
-/

set_option maxRecDepth 8000

/-- JavaScript strings, modelled as lists of characters. -/
abbrev Str := List Char

/-- Coerce a Lean string literal to the model type. -/
def str (s : String) : Str := s.data

/-- ASCII fragment of `String.prototype.toLowerCase` applied to one character. -/
def jsToLowerChar (c : Char) : Char :=
  if 65 ≤ c.toNat ∧ c.toNat ≤ 90 then Char.ofNat (c.toNat + 32) else c

/-- ASCII fragment of `String.prototype.toLowerCase`. -/
def jsToLower (s : Str) : Str := s.map jsToLowerChar

/-- ASCII fragment of the JavaScript whitespace class `\s`. -/
def jsIsWs (c : Char) : Bool :=
  c = ' ' ∨ c.toNat = 9 ∨ c.toNat = 10 ∨ c.toNat = 11 ∨ c.toNat = 12 ∨ c.toNat = 13

/-- `String.prototype.trim`: strip leading and trailing whitespace. -/
def jsTrim (s : Str) : Str :=
  ((s.dropWhile jsIsWs).reverse.dropWhile jsIsWs).reverse

/-- `String.prototype.split` with a one-character separator. -/
def splitChar (sep : Char) : Str → List Str
  | [] => [[]]
  | c :: rest =>
    if c = sep then [] :: splitChar sep rest
    else
      match splitChar sep rest with
      | [] => [[c]]
      | p :: ps => (c :: p) :: ps

/-- Helper for `collapseDots`: the flag records whether the previous
character was a dot (so further dots of the same run are dropped). -/
def collapseDotsAux : Bool → Str → Str
  | _, [] => []
  | inRun, c :: rest =>
    if c = '.' then
      if inRun then collapseDotsAux true rest
      else '.' :: collapseDotsAux true rest
    else c :: collapseDotsAux false rest

/-- `String.prototype.replace(/\.+/g, ".")`: collapse every run of dots. -/
def collapseDots (s : Str) : Str := collapseDotsAux false s

/-- Substring test (`String.prototype.includes` with a string argument). -/
def containsSub (pat : Str) : Str → Bool
  | [] => pat.isEmpty
  | c :: rest => pat.isPrefixOf (c :: rest) || containsSub pat rest

/-- `String.prototype.replace(/\s+/g, "")`: delete all whitespace. -/
def removeWs (s : Str) : Str := s.filter (fun c => !jsIsWs c)

/-- `String.prototype.replace(pat, rep)` with a plain-string pattern:
replace the first occurrence of `pat` only. -/
def replaceFirst (pat rep : Str) (s : Str) : Str :=
  match s with
  | [] => if pat = [] then rep else []
  | c :: rest =>
    if pat.isPrefixOf s then rep ++ s.drop pat.length
    else c :: replaceFirst pat rep rest

/-- `parseInt` on a string of decimal digits. -/
def digitsToNat (s : Str) : Nat :=
  s.foldl (fun acc c => acc * 10 + (c.toNat - 48)) 0

/-- JavaScript `[a-zA-Z]`. -/
def jsIsAlpha (c : Char) : Bool :=
  ('a' ≤ c ∧ c ≤ 'z') ∨ ('A' ≤ c ∧ c ≤ 'Z')

/-- JavaScript `[0-9]`. -/
def jsIsDigit (c : Char) : Bool := '0' ≤ c ∧ c ≤ '9'

/-- JavaScript `[a-zA-Z0-9]`. -/
def jsIsAlnum (c : Char) : Bool := jsIsAlpha c || jsIsDigit c

/-- JavaScript `[0-9a-fA-F]`. -/
def jsIsHex (c : Char) : Bool :=
  jsIsDigit c ∨ ('a' ≤ c ∧ c ≤ 'f') ∨ ('A' ≤ c ∧ c ≤ 'F')

/-- The RFC 5322 `atext` character class used by the local-part regex:
letters, digits and `!#$%&'*+/=?^_`{|}~-` (some written via character
codes: 39 is the apostrophe, 96 the backtick, 123/125 the braces). -/
def isAtext (c : Char) : Bool :=
  jsIsAlnum c ||
  c ∈ ['!', '#', '$', '%', '&', Char.ofNat 39, '*', '+', '/', '=', '?', '^',
       '_', Char.ofNat 96, Char.ofNat 123, '|', Char.ofNat 125, '~', '-']

/-- Check of the dot-atom regex `^atext+(\.atext+)*$`. -/
def dotAtomTest (s : Str) : Bool :=
  (splitChar '.' s).all (fun p => !p.isEmpty && p.all isAtext)

/-- Result record of the RFC checks: `{ valid, reason }`. -/
structure RFCCheck where
  valid : Bool
  reason : Str := []
deriving Repr, DecidableEq

/-- The resolved option set of `EmailValidator` (and of the `RFCParser` it
constructs).  Fields mirror `this.options` after the constructor ran. -/
structure Options where
  checkSyntax : Bool := true
  checkDomain : Bool := true
  checkMX : Bool := true
  checkSMTP : Bool := true
  checkDisposable : Bool := true
  checkTypos : Bool := true
  strictMode : Bool := false
  allowInternational : Bool := true
  allowQuotedLocal : Bool := true
  allowComments : Bool := true
  smtpFromDomain : Str := str "validator.example.com"
  enableStrictSMTP : Bool := true
  enableDeepDomainAnalysis : Bool := true
  enableAdvancedHeuristics : Bool := true
  enableRoleBasedDetection : Bool := true
  enableGmailNormalization : Bool := true
  enableCatchAllDetection : Bool := true
  useStrictMode : Bool := false
  enableCache : Bool := true
  strictScoring : Bool := false
deriving Repr, DecidableEq

/-- The constructor's strict-mode override block: when `useStrictMode` or
`strictMode` is set, flip the strict switches and `strictScoring`. -/
def applyStrictOverrides (o : Options) : Options :=
  if o.useStrictMode || o.strictMode then
    { o with strictMode := true, enableStrictSMTP := true,
             enableDeepDomainAnalysis := true, enableAdvancedHeuristics := true,
             enableRoleBasedDetection := true, enableGmailNormalization := true,
             enableCatchAllDetection := true, allowQuotedLocal := false,
             allowComments := false, strictScoring := true }
  else o

/-- The default option set. -/
def defaultOptions : Options := {}

/-- Modelled external library (punycode): `punycode.toASCII` is the identity
on ASCII domains, which is the only case the settled claims exercise; the
non-ASCII encoding is not modelled.  It never throws on ASCII input. -/
def punycodeToASCII (d : Str) : Str := d

/-- `RFCParser.validateQuotedLocalPart`: scan the quoted content, handling
escape sequences, embedded quotes and non-ASCII bytes. -/
def quotedScan : Str → RFCCheck
  | [] => { valid := true }
  | c :: rest =>
    if c.toNat = 92 then
      match rest with
      | [] => { valid := false,
                reason := str "Invalid escape sequence in quoted local part" }
      | _ :: rest2 => quotedScan rest2
    else if c.toNat = 34 then
      { valid := false, reason := str "Unescaped quote in quoted local part" }
    else if c.toNat > 127 then
      { valid := false, reason := str "Non-ASCII character in quoted local part" }
    else quotedScan rest

/-- `RFCParser.validateQuotedLocalPart` (outer quotes stripped, then scanned). -/
def validateQuotedLocalPart (localPart : Str) : RFCCheck :=
  quotedScan (localPart.drop 1).dropLast

/-- `RFCParser.validateLocalPart`. -/
def validateLocalPart (o : Options) (localPart : Str) : RFCCheck :=
  if localPart.length > 64 then
    { valid := false, reason := str "Local part exceeds 64 characters" }
  else if localPart.length = 0 then
    { valid := false, reason := str "Local part cannot be empty" }
  else if [Char.ofNat 34].isPrefixOf localPart ∧ [Char.ofNat 34].isSuffixOf localPart then
    if !o.allowQuotedLocal then
      { valid := false, reason := str "Quoted local parts not allowed in strict mode" }
    else validateQuotedLocalPart localPart
  else if ['.'].isPrefixOf localPart ∨ ['.'].isSuffixOf localPart then
    { valid := false, reason := str "Local part cannot start or end with a dot" }
  else if containsSub ['.', '.'] localPart then
    { valid := false, reason := str "Local part cannot contain consecutive dots" }
  else if !dotAtomTest localPart then
    { valid := false, reason := str "Local part contains invalid characters" }
  else { valid := true }

/-- `RFCParser.validateDomainLabel`. -/
def validateDomainLabel (label : Str) (isTopLevel : Bool) : RFCCheck :=
  if label.length > 63 then
    { valid := false, reason := str "Domain label exceeds 63 characters" }
  else if label.length = 0 then
    { valid := false, reason := str "Domain label cannot be empty" }
  else if ['-'].isPrefixOf label ∨ ['-'].isSuffixOf label then
    { valid := false, reason := str "Domain label cannot start or end with hyphen" }
  else if isTopLevel then
    if !label.all jsIsAlpha then
      { valid := false, reason := str "Top-level domain must contain only letters" }
    else if label.length < 2 then
      { valid := false, reason := str "Top-level domain must be at least 2 characters" }
    else { valid := true }
  else
    if !label.all (fun c => jsIsAlnum c || c = '-') then
      { valid := false, reason := str "Domain label contains invalid characters" }
    else { valid := true }

/-- Validate the labels in order (index `i`, top-level iff last), returning
the first failure. -/
def validateLabels : List Str → RFCCheck
  | [] => { valid := true }
  | [l] =>
    let v := validateDomainLabel l true
    if !v.valid then v else { valid := true }
  | l :: rest =>
    let v := validateDomainLabel l false
    if !v.valid then v else validateLabels rest

/-- `RFCParser.validateIPLiteral`. -/
def validateIPLiteral (ipLiteral : Str) : RFCCheck :=
  let ip := (ipLiteral.drop 1).dropLast
  let pieces := splitChar '.' ip
  let ipv4Shape := pieces.length = 4 &&
    pieces.all (fun p => 1 ≤ p.length && p.length ≤ 3 && p.all jsIsDigit)
  if ipv4Shape then
    if pieces.any (fun p => digitsToNat p > 255) then
      { valid := false, reason := str "Invalid IPv4 address in domain literal" }
    else { valid := true }
  else if ip.contains ':' then
    let groups := splitChar ':' ip
    if 3 ≤ groups.length && groups.length ≤ 8 &&
       groups.all (fun g => g.length ≤ 4 && g.all jsIsHex) then
      { valid := true }
    else { valid := false, reason := str "Invalid IP address in domain literal" }
  else { valid := false, reason := str "Invalid IP address in domain literal" }

/-- `RFCParser.validateDomainPart`. -/
def validateDomainPart (domain : Str) : RFCCheck :=
  if domain.length > 253 then
    { valid := false, reason := str "Domain exceeds 253 characters" }
  else if domain.length = 0 then
    { valid := false, reason := str "Domain cannot be empty" }
  else if ['['].isPrefixOf domain ∧ [']'].isSuffixOf domain then
    validateIPLiteral domain
  else
    let labels := splitChar '.' domain
    if labels.length < 2 then
      { valid := false, reason := str "Domain must have at least two labels" }
    else validateLabels labels

/-- `RFCParser.performAdvancedValidation`. -/
def performAdvancedValidation (o : Options) (email localPart domain : Str) :
    RFCCheck :=
  if email.contains ' ' then
    { valid := false, reason := str "Email contains unescaped spaces" }
  else
    let tld := (splitChar '.' domain).getLastD []
    if tld.length < 2 ∨ tld.length > 6 then
      { valid := false, reason := str "Invalid top-level domain length" }
    else if o.strictMode then
      if localPart.contains '+' then
        { valid := false, reason := str "Plus addressing not allowed in strict mode" }
      else if !(!localPart.isEmpty &&
          localPart.all (fun c => jsIsAlnum c || c = '.' || c = '_' || c = '-')) then
        { valid := false,
          reason := str "Local part contains unusual characters (strict mode)" }
      else { valid := true }
    else { valid := true }

/-- `RFCParser.validateRFC`: the full syntax check (null check, trim, length,
`@`-count, local part, domain part, IDN re-validation, advanced checks). -/
def validateRFC (o : Options) (email0 : Str) : RFCCheck :=
  if email0.isEmpty then
    { valid := false, reason := str "Email must be a non-empty string" }
  else
    let email := jsTrim email0
    if email.length > 320 then
      { valid := false,
        reason := str "Email exceeds maximum length of 320 characters" }
    else
      let atCount := email.count '@'
      if atCount ≠ 1 then
        { valid := false,
          reason := if atCount = 0 then str "Missing @ symbol"
                    else str "Multiple @ symbols found" }
      else
        let parts := splitChar '@' email
        let localPart := parts.headD []
        let domain := parts.getD 1 []
        let localValidation := validateLocalPart o localPart
        if !localValidation.valid then localValidation
        else
          let domainValidation := validateDomainPart domain
          if !domainValidation.valid then domainValidation
          else
            -- `allowInternational` branch: with the ASCII model of
            -- `punycode.toASCII`, `asciiDomain = domain` and the IDN
            -- re-validation is a no-op (as in the source for ASCII input).
            if o.allowInternational ∧ punycodeToASCII domain ≠ domain then
              let idn := validateDomainPart (punycodeToASCII domain)
              if !idn.valid then
                { valid := false,
                  reason := str "Invalid internationalized domain: " ++ idn.reason }
              else performAdvancedValidation o email localPart domain
            else performAdvancedValidation o email localPart domain

/-- The parsed-address record produced by `RFCParser.parseEmail`. -/
structure ParsedEmail where
  original : Str
  localPart : Str
  domain : Str
  isQuoted : Bool
  isInternational : Bool
  normalizedDomain : Str
deriving Repr, DecidableEq

/-- `RFCParser.isInternationalDomain` (with the ASCII punycode model this is
always `false`, as it is in the source for ASCII domains). -/
def isInternationalDomain (domain : Str) : Bool :=
  punycodeToASCII domain ≠ domain

/-- `RFCParser.normalizeDomain`. -/
def normalizeDomain (domain : Str) : Str :=
  punycodeToASCII (jsToLower domain)

/-- `RFCParser.parseEmail`: `null` on syntax failure, otherwise split the raw
(untrimmed) input at `@` and lowercase the domain. -/
def parseEmail (o : Options) (email : Str) : Option ParsedEmail :=
  if !(validateRFC o email).valid then none
  else
    match splitChar '@' email with
    | localPart :: domain :: _ =>
      some { original := email
             localPart := localPart
             domain := jsToLower domain
             isQuoted := [Char.ofNat 34].isPrefixOf localPart ∧
                         [Char.ofNat 34].isSuffixOf localPart
             isInternational := isInternationalDomain domain
             normalizedDomain := normalizeDomain domain }
    | _ => none

example : (validateRFC defaultOptions (str "john.doe@gmail.com")).valid = true := by decide
example : (validateRFC defaultOptions (str "invalid-email")).valid = false := by decide
example : (validateRFC defaultOptions (str "a@b")).valid = false := by decide
example : (validateRFC defaultOptions (str "a..b@gmail.com")).valid = false := by decide
example : (validateRFC defaultOptions (str " a@b.cd ")).valid = true := by decide

/-! ## TypoCorrector (`typoCorrector.js`) -/

/-- `TypoCorrector.domainCorrections`: the misspelling → canonical mapping,
in source (insertion) order.  The last seven entries are the TLD typos. -/
def domainCorrections : List (Str × Str) :=
  [ (str "gmail.con", str "gmail.com"), (str "gmail.co", str "gmail.com"),
    (str "gmai.com", str "gmail.com"), (str "gmial.com", str "gmail.com"),
    (str "gmal.com", str "gmail.com"), (str "gmeil.com", str "gmail.com"),
    (str "gnail.com", str "gmail.com"), (str "gimail.com", str "gmail.com"),
    (str "gamil.com", str "gmail.com"), (str "gmaill.com", str "gmail.com"),
    (str "gmail.comm", str "gmail.com"), (str "gmail.ccom", str "gmail.com"),
    (str "gmail.om", str "gmail.com"), (str "gmail.cm", str "gmail.com"),
    (str "gmailo.com", str "gmail.com"), (str "gmail.c", str "gmail.com"),
    (str "yahoo.con", str "yahoo.com"), (str "yahoo.co", str "yahoo.com"),
    (str "yhoo.com", str "yahoo.com"), (str "yaho.com", str "yahoo.com"),
    (str "yahoo.om", str "yahoo.com"), (str "yahoo.cm", str "yahoo.com"),
    (str "yahooo.com", str "yahoo.com"), (str "yahoo.comm", str "yahoo.com"),
    (str "yahho.com", str "yahoo.com"), (str "yaoho.com", str "yahoo.com"),
    (str "yahoo.c", str "yahoo.com"),
    (str "hotmail.con", str "hotmail.com"), (str "hotmail.co", str "hotmail.com"),
    (str "hotnail.com", str "hotmail.com"), (str "hotmial.com", str "hotmail.com"),
    (str "hotmal.com", str "hotmail.com"), (str "hotmeil.com", str "hotmail.com"),
    (str "hotmail.om", str "hotmail.com"), (str "hotmail.cm", str "hotmail.com"),
    (str "hotmail.comm", str "hotmail.com"), (str "hotmaill.com", str "hotmail.com"),
    (str "hotmial.co", str "hotmail.com"),
    (str "outlook.con", str "outlook.com"), (str "outlook.co", str "outlook.com"),
    (str "outlok.com", str "outlook.com"), (str "outloo.com", str "outlook.com"),
    (str "outlook.om", str "outlook.com"), (str "outlook.cm", str "outlook.com"),
    (str "outlook.comm", str "outlook.com"), (str "outlookk.com", str "outlook.com"),
    (str "outllook.com", str "outlook.com"),
    (str "icloud.con", str "icloud.com"), (str "icloud.co", str "icloud.com"),
    (str "iclod.com", str "icloud.com"), (str "icoud.com", str "icloud.com"),
    (str "icloud.om", str "icloud.com"), (str "icloud.cm", str "icloud.com"),
    (str "aol.con", str "aol.com"), (str "aol.co", str "aol.com"),
    (str "ao.com", str "aol.com"), (str "aoll.com", str "aol.com"),
    (str "protonmail.con", str "protonmail.com"),
    (str "protonmail.co", str "protonmail.com"),
    (str "protonmial.com", str "protonmail.com"),
    (str "protonmal.com", str "protonmail.com"),
    (str "live.con", str "live.com"), (str "live.co", str "live.com"),
    (str "msn.con", str "msn.com"), (str "msn.co", str "msn.com"),
    (str "mail.con", str "mail.com"), (str "mail.co", str "mail.com"),
    (str "ymail.con", str "ymail.com"), (str "ymail.co", str "ymail.com"),
    (str ".con", str ".com"), (str ".co", str ".com"),
    (str ".cmo", str ".com"), (str ".comm", str ".com"),
    (str ".om", str ".com"), (str ".cm", str ".com"),
    (str ".ccom", str ".com") ]

/-- Object-key lookup `this.domainCorrections[key]`. -/
def lookupCorrection (key : Str) : Option Str :=
  (domainCorrections.find? (fun kv => kv.1 = key)).map (·.2)

/-- `TypoCorrector.findSimilarDomain`'s popular-domain whitelist. -/
def popularDomains : List Str :=
  [ str "gmail.com", str "yahoo.com", str "hotmail.com", str "outlook.com",
    str "icloud.com", str "aol.com", str "protonmail.com", str "live.com",
    str "msn.com", str "ymail.com", str "mail.com" ]

/-- One inner row-step of the Levenshtein matrix: `up` is `matrix[i-1][j]`,
`diag` is `matrix[i-1][j-1]`, `left` is the entry just computed. -/
def levRowAux (c1 : Char) : Str → List Nat → Nat → Nat → List Nat
  | [], _, _, _ => []
  | _ :: _, [], _, _ => []
  | c2 :: rest2, up :: prest, diag, left =>
    let cur := if c1 = c2 then diag else 1 + min up (min left diag)
    cur :: levRowAux c1 rest2 prest up cur

/-- Row `i` of the Levenshtein matrix from row `i-1`. -/
def levRow (c1 : Char) (str2 : Str) (prev : List Nat) (i : Nat) : List Nat :=
  match prev with
  | [] => [i]
  | diag :: rest => i :: levRowAux c1 str2 rest diag i

/-- `TypoCorrector.calculateEditDistance`: the dynamic-programming
edit-distance matrix, returning `matrix[len1][len2]`. -/
def calculateEditDistance (str1 str2 : Str) : Nat :=
  let row0 := List.range (str2.length + 1)
  let final := str1.foldl
    (fun (st : List Nat × Nat) c1 => (levRow c1 str2 st.1 (st.2 + 1), st.2 + 1))
    (row0, 0)
  final.1.getLastD 0

/-- `TypoCorrector.findSimilarDomain`: nearest popular domain within edit
distance 2 (the loop admits distance 3 as `bestMatch`, but the final guard
only returns when the lowest distance is ≤ 2).  `Infinity` is modelled by a
constant larger than any edit distance that can arise here. -/
def findSimilarDomain (domain : Str) : Option Str :=
  if popularDomains.contains (jsToLower domain) then none
  else
    let inf : Nat := 1000000
    let best := popularDomains.foldl
      (fun (st : Option Str × Nat) pd =>
        let d := calculateEditDistance (jsToLower domain) pd
        if 0 < d ∧ d ≤ 3 ∧ d < st.2 then (some pd, d) else st)
      (none, inf)
    if best.2 ≤ 2 then best.1 else none

/-- A `{ suggested, confidence }` record from `checkDomainTypos`. -/
structure TypoCorrection where
  suggested : Str
  confidence : Nat
deriving Repr, DecidableEq

/-- `TypoCorrector.checkDomainTypos`: direct mapping hit (95), TLD-typo
substitution (90, replacing the first occurrence as `String.replace` does),
then bounded edit distance (80). -/
def checkDomainTypos (domain : Str) : Option TypoCorrection :=
  let lc := jsToLower domain
  match lookupCorrection lc with
  | some c => some { suggested := c, confidence := 95 }
  | none =>
    match domainCorrections.find?
        (fun kv => ['.'].isPrefixOf kv.1 && kv.1.isSuffixOf lc) with
    | some kv =>
      some { suggested := replaceFirst kv.1 kv.2 lc, confidence := 90 }
    | none =>
      match findSimilarDomain lc with
      | some s => some { suggested := s, confidence := 80 }
      | none => none

/-- Result record of `TypoCorrector.checkAndSuggest`. -/
structure TypoResult where
  typoDetected : Bool
  suggestion : Option Str
  corrections : List Str
  confidence : Nat
deriving Repr, DecidableEq

/-- `TypoCorrector.checkAndSuggest` (the per-input cache memoizes this pure
function and is therefore not modelled). -/
def checkAndSuggest (email : Str) : TypoResult :=
  let r : TypoResult :=
    { typoDetected := false, suggestion := none, corrections := [], confidence := 0 }
  if !email.contains '@' then
    { r with corrections := [str "Email must contain @ symbol"] }
  else
    let parts := splitChar '@' email
    let localPart := parts.headD []
    let domain := parts.getD 1 []
    if localPart.isEmpty || domain.isEmpty then
      { r with corrections := [str "Email must have both local and domain parts"] }
    else
      match checkDomainTypos domain with
      | some corr =>
        { typoDetected := true,
          suggestion := some (localPart ++ '@' :: corr.suggested),
          corrections := [str "Did you mean " ++ corr.suggested ++ str "?"],
          confidence := corr.confidence }
      | none =>
        let r :=
          if !domain.contains '.' then
            { r with typoDetected := true,
                     corrections := r.corrections ++
                       [str "Domain is missing top-level domain (e.g., .com, .org)"],
                     suggestion := some (localPart ++ '@' :: (domain ++ str ".com")) }
          else r
        let r :=
          if containsSub ['.', '.'] email then
            { r with typoDetected := true,
                     corrections := r.corrections ++ [str "Email contains consecutive dots"],
                     suggestion := some (collapseDots email) }
          else r
        let r :=
          if email.contains ' ' then
            { r with typoDetected := true,
                     corrections := r.corrections ++ [str "Email contains spaces"],
                     suggestion := some (removeWs email) }
          else r
        let r :=
          if containsSub ['.', '.'] localPart && !r.typoDetected then
            { r with typoDetected := true,
                     suggestion := some (collapseDots localPart ++ '@' :: domain),
                     corrections := r.corrections ++ [str "Consecutive dots in local part"] }
          else r
        r

example : calculateEditDistance (str "gmai.com") (str "gmail.com") = 1 := by decide
example : (checkAndSuggest (str "user@gmai.com")).suggestion =
    some (str "user@gmail.com") := by decide
example : (checkAndSuggest (str "user@gmail.com")).suggestion = none := by decide
example : (checkAndSuggest (str "user@gmali.com")).suggestion =
    some (str "user@gmail.com") := by decide

/-! ## DisposableDetector (`disposableDetector.js`) -/

/-- Drop everything up to and including the first occurrence of `pat`
(`none` when `pat` does not occur). -/
def dropAfterFirst (pat : Str) : Str → Option Str
  | [] => if pat.isEmpty then some [] else none
  | c :: rest =>
    if pat.isPrefixOf (c :: rest) then some ((c :: rest).drop pat.length)
    else dropAfterFirst pat rest

/-- Test of a regex of the shape `a.*b.*…`: the given literals occur in
order, disjointly. -/
def seqMatch : List Str → Str → Bool
  | [], _ => true
  | p :: ps, s =>
    match dropAfterFirst p s with
    | none => false
    | some rest => seqMatch ps rest

/-- Test of a regex of the shape `\d+w`: some digit immediately followed by
the literal `w`. -/
def digitThen (word : Str) : Str → Bool
  | [] => false
  | c :: rest => (jsIsDigit c && word.isPrefixOf rest) || digitThen word rest

/-- `DisposableDetector.disposablePatterns` as substring/sequence tests
(the `/i` flags are absorbed by the caller's lowercasing). -/
def disposablePatterns : List (Str → Bool) :=
  [ seqMatch [str "temp", str "mail"],
    seqMatch [str "10", str "min", str "mail"],
    seqMatch [str "guerrilla", str "mail"],
    containsSub (str "throwaway"), containsSub (str "disposable"),
    seqMatch [str "fake", str "mail"], seqMatch [str "spam", str "mail"],
    seqMatch [str "trash", str "mail"],
    containsSub (str "mailinator"), containsSub (str "getairmail"),
    containsSub (str "sharklasers"), containsSub (str "grr.la"),
    containsSub (str "yopmail"), containsSub (str "maildrop"),
    containsSub (str "tempail"), containsSub (str "10minutemail"),
    containsSub (str "dispostable"), containsSub (str "spamgourmet"),
    containsSub (str "mailnesia"), containsSub (str "emailondeck"),
    containsSub (str "tempinbox"), containsSub (str "incognitomail"),
    containsSub (str "anonymbox"), containsSub (str "deadaddress"),
    containsSub (str "mytrashmail"), containsSub (str "no-spam"),
    containsSub (str "spam4"), containsSub (str "tempemail"),
    containsSub (str "tempmail"), containsSub (str "mailcatch"),
    containsSub (str "mailexpire"), containsSub (str "emailsensei"),
    containsSub (str "spamex"), containsSub (str "dropmail"),
    containsSub (str "jetable"), containsSub (str "wegwerfemail"),
    containsSub (str "weg-werf-email"), containsSub (str "email60"),
    containsSub (str "mailforspam"), containsSub (str "emailmiser"),
    containsSub (str "anonbox"), containsSub (str "spamhole"),
    containsSub (str "spamstack"), containsSub (str "spam.la"),
    containsSub (str "mintemail"), containsSub (str "throwam"),
    containsSub (str "tempsky"), containsSub (str "discard.email"),
    containsSub (str "burnermail"), containsSub (str "inboxkitten"),
    containsSub (str "mohmal"), containsSub (str "temp-mail"),
    containsSub (str "20minutemail"), containsSub (str "luxusmail"),
    containsSub (str "spamfree24"), containsSub (str "emailfake"),
    containsSub (str "mailtemporary"), containsSub (str "instantemail"),
    containsSub (str "tempemails") ]

/-- `DisposableDetector.knownDisposableDomains`: the built-in fallback list
(also the contents of `this.disposableDomains` when the blocklist file is
absent). -/
def knownDisposableDomains : List Str :=
  [ str "10minutemail.com", str "10minutemail.net", str "20minutemail.com",
    str "anonbox.net", str "anonymbox.com", str "burnermail.io",
    str "clickamail.com", str "deadaddress.com", str "discard.email",
    str "dropmail.me", str "emailfake.com", str "emailondeck.com",
    str "emailsensei.com", str "getairmail.com", str "grr.la",
    str "guerrillamail.com", str "guerrillamail.net", str "incognitomail.org",
    str "inboxkitten.com", str "jetable.org", str "luxusmail.org",
    str "mailcatch.com", str "maildrop.cc", str "mailexpire.com",
    str "mailforspam.com", str "mailinator.com", str "mailnesia.com",
    str "mintemail.com", str "mohmal.com", str "mytrashmail.com",
    str "sharklasers.com", str "spam.la", str "spam4.me", str "spamex.com",
    str "spamfree24.org", str "spamgourmet.com", str "spamhole.com",
    str "spamstack.net", str "temp-mail.org", str "tempail.com",
    str "tempemail.com", str "tempemail.net", str "tempemails.net",
    str "tempinbox.com", str "tempmail.it", str "tempmail.org",
    str "tempsky.com", str "throwam.com", str "throwaway.email",
    str "trashmail.com", str "wegwerfemail.de", str "yopmail.com",
    str "yopmail.fr", str "yopmail.net" ]

/-- `DisposableDetector.checkAdvancedHeuristics`'s pattern catalogue. -/
def advSuspiciousPatterns : List (Str → Bool) :=
  [ digitThen (str "min"), digitThen (str "hour"), digitThen (str "sec"),
    containsSub (str "instant"), containsSub (str "quick"),
    containsSub (str "fast"),
    containsSub (str "throw"), containsSub (str "drop"),
    containsSub (str "trash"), containsSub (str "delete"),
    containsSub (str "destroy"), containsSub (str "burn"),
    containsSub (str "expire"), containsSub (str "vanish"),
    containsSub (str "test"), containsSub (str "demo"),
    containsSub (str "sample"), containsSub (str "fake"),
    containsSub (str "dummy"), containsSub (str "mock"),
    containsSub (str "anon"), containsSub (str "private"),
    containsSub (str "secret"), containsSub (str "hidden"),
    containsSub (str "incognito"),
    containsSub (str "nospam"), containsSub (str "antispam"),
    containsSub (str "spamfree"), containsSub (str "noads"),
    containsSub (str "mailbox"), containsSub (str "inbox"),
    containsSub (str "email"), containsSub (str "mail") ]

/-- `DisposableDetector.checkAdvancedHeuristics`. -/
def checkAdvancedHeuristics (domain : Str) : Bool :=
  let nMatches := (advSuspiciousPatterns.filter (fun p => p domain)).length
  if nMatches ≥ 2 then true
  else if domain.length ≤ 8 && containsSub (str "mail") domain then true
  else
    let hyphenCount := domain.count '-'
    let numberCount := (domain.filter jsIsDigit).length
    hyphenCount > 2 || (numberCount > 3 && containsSub (str "mail") domain)

/-- The suspicious-TLD list shared by the disposable checks. -/
def suspiciousTlds : List Str := [str ".tk", str ".ml", str ".ga", str ".cf"]

/-- `DisposableDetector.isDisposable`, with the loaded blocklist as the
`corpus` parameter (`knownDisposableDomains` when the file is absent); the
24-hour cache memoizes this pure function and is not modelled.  The float
comparison `numberRatio > 0.3` is exact here: denominators ≤ 320 keep the
rational and double comparisons aligned. -/
def isDisposable (corpus : List Str) (domain : Str) : Bool :=
  let nd := jsTrim (jsToLower domain)
  let d1 := corpus.contains nd
  let d2 := d1 || disposablePatterns.any (fun p => p nd)
  let d3 := d2 ||
    (let domainParts := splitChar '.' nd
     domainParts.length > 2 &&
       corpus.contains
         (List.intercalate ['.'] (domainParts.drop (domainParts.length - 2))))
  let d4 := d3 || suspiciousTlds.any (fun t => t.isSuffixOf nd)
  let d5 := d4 ||
    (10 * (nd.filter jsIsDigit).length > 3 * nd.length &&
     containsSub (str "mail") nd)
  d5 || checkAdvancedHeuristics nd

/-- `DisposableDetector`'s consumer-provider list (`isBusinessEmail`). -/
def consumerProviders : List Str :=
  [ str "gmail.com", str "yahoo.com", str "hotmail.com", str "outlook.com",
    str "aol.com", str "icloud.com", str "me.com", str "mac.com",
    str "live.com", str "msn.com", str "ymail.com", str "rocketmail.com",
    str "protonmail.com", str "tutanota.com", str "mail.com", str "zoho.com",
    str "fastmail.com" ]

/-- `DisposableDetector.isBusinessEmail`. -/
def isBusinessEmail (corpus : List Str) (domain : Str) : Bool :=
  let nd := jsTrim (jsToLower domain)
  if consumerProviders.contains nd then false
  else if isDisposable corpus nd then false
  else
    [ containsSub (str "corp"), containsSub (str "company"),
      containsSub (str "inc"), containsSub (str "ltd"),
      containsSub (str "llc"),
      fun s => (str "org").isSuffixOf s,
      fun s => (str "edu").isSuffixOf s,
      fun s => (str "gov").isSuffixOf s ].any (fun p => p nd)

example : isDisposable knownDisposableDomains (str "10minutemail.com") = true := by decide
example : isDisposable knownDisposableDomains (str "gmail.com") = false := by decide
example : isDisposable knownDisposableDomains (str "x.10minutemail.com") = true := by decide
example : isDisposable knownDisposableDomains (str "foo.tk") = true := by decide
example : isDisposable knownDisposableDomains (str "y.com") = false := by decide

/-! ## EmailValidator (`emailValidator.js`, the strict-scoring variant cited
by the claims) -/

/-- Decimal rendering of a number (JS template interpolation). -/
def natToStr (n : Nat) : Str := (Nat.repr n).data

/-- A DNS MX record. -/
structure MXRecord where
  priority : Int
  exchange : Str
deriving Repr, DecidableEq

/-- Stable insertion of an MX record by priority (V8's `Array.sort` is
stable). -/
def insertByPriority (m : MXRecord) : List MXRecord → List MXRecord
  | [] => [m]
  | x :: xs =>
    if m.priority < x.priority then m :: x :: xs else x :: insertByPriority m xs

/-- `mxRecords.sort((a, b) => a.priority - b.priority)`. -/
def sortMX (l : List MXRecord) : List MXRecord := l.foldr insertByPriority []

/-- One event delivered to the SMTP socket: a data chunk, or a socket
error. A dialogue that never resolves is ended by the timeout. -/
inductive SMTPEvent where
  | data (chunk : Str)
  | socketError (msg : Str)
deriving Repr, DecidableEq

/-- The I/O environment: DNS oracles (whose calls may fail — an `.error`
models a thrown/rejected call), the SMTP socket's event stream, the wall
clock, and the loaded disposable blocklist. -/
structure Env where
  dnsLookup : Str → Except Str Unit
  resolveMx : Str → Except Str (List MXRecord)
  resolve4 : Str → Except Str Unit
  resolveTxt : Str → Except Str (List (List Str))
  smtpEvents : List SMTPEvent
  nowMs : Nat
  disposableCorpus : List Str

/-- `EmailValidator.validateDomain` (the 5-minute cache memoizes this
function of the environment and is not modelled). -/
def validateDomainV (env : Env) (domain : Str) : RFCCheck :=
  let asciiDomain := punycodeToASCII domain
  if asciiDomain.isEmpty || asciiDomain.length > 253 then
    { valid := false, reason := str "Invalid domain format" }
  else
    match env.dnsLookup asciiDomain with
    | .ok _ => { valid := true, reason := str "Domain resolves correctly" }
    | .error _ => { valid := false, reason := str "Domain does not resolve" }

/-- Result record of `EmailValidator.checkMXRecords`. -/
structure MXResult where
  found : Bool
  records : List MXRecord := []
  deliverabilityScore : Int := 0
  reason : Str := []
deriving Repr, DecidableEq

/-- `EmailValidator.calculateMXScore`. -/
def calculateMXScore (mxRecords : List MXRecord) : Int :=
  let goodProviders :=
    [str "google.com", str "outlook.com", str "microsoft.com", str "amazon.com"]
  let base : Int :=
    70 + (if mxRecords.length > 1 then 10 else 0) +
    (if mxRecords.length > 2 then 5 else 0) +
    (if mxRecords.any (fun mx => goodProviders.any (fun p => containsSub p mx.exchange))
     then 15 else 0)
  min 100 base

/-- `EmailValidator.checkMXRecords`. -/
def checkMXRecordsV (env : Env) (domain : Str) : MXResult :=
  match env.resolveMx (punycodeToASCII domain) with
  | .ok recs =>
    if !recs.isEmpty then
      let sorted := sortMX recs
      { found := true, records := sorted,
        deliverabilityScore := calculateMXScore sorted,
        reason := str "Found " ++ natToStr recs.length ++ str " MX record(s)" }
    else
      match env.resolve4 (punycodeToASCII domain) with
      | .ok _ =>
        { found := true, records := [], deliverabilityScore := 60,
          reason := str "No MX records, but A record exists (fallback)" }
      | .error _ =>
        { found := false, deliverabilityScore := 0,
          reason := str "No MX or A records found" }
  | .error msg =>
    { found := false, deliverabilityScore := 0,
      reason := str "MX lookup failed: " ++ msg }

/-- The `domainHealth` sub-record. -/
structure DomainHealth where
  spf : Bool := false
  dkim : Bool := false
  dmarc : Bool := false
  blacklisted : Bool := false
  reputation : Int := 0
deriving Repr, DecidableEq

/-- `EmailValidator.calculateDomainReputation`. -/
def calculateDomainReputation (domain : Str) (health : DomainHealth) : Int :=
  let trustedDomains :=
    [ str "gmail.com", str "outlook.com", str "yahoo.com", str "hotmail.com",
      str "icloud.com", str "aol.com", str "protonmail.com" ]
  let base : Int :=
    50 + (if trustedDomains.contains (jsToLower domain) then 40 else 0) +
    (if containsSub (str "corp") domain || containsSub (str "company") domain ||
        (!containsSub (str ".com") domain && !containsSub (str ".net") domain)
     then 20 else 0) +
    (if health.spf then 5 else 0) + (if health.dmarc then 10 else 0) +
    (if health.dkim then 5 else 0) -
    (if suspiciousTlds.any (fun t => t.isSuffixOf domain) then 30 else 0)
  max 0 (min 100 base)

/-- `EmailValidator.checkDomainBlacklists`: the hard-coded bad-domain set. -/
def checkDomainBlacklists (domain : Str) : Bool :=
  [ str "tempmail.com", str "10minutemail.com", str "guerrillamail.com",
    str "mailinator.com", str "spam.com", str "example.com"
  ].contains (jsToLower domain)

/-- `EmailValidator.checkDomainHealth`: SPF/DMARC TXT lookups (a failing
lookup counts as "record not present"), reputation, then the blacklist
check.  DKIM is never probed and stays `false`. -/
def checkDomainHealthV (env : Env) (domain : Str) : DomainHealth :=
  let asciiDomain := punycodeToASCII domain
  let spf :=
    match env.resolveTxt asciiDomain with
    | .ok records =>
      records.any (fun rec => rec.any (fun txt => (str "v=spf1").isPrefixOf txt))
    | .error _ => false
  let dmarc :=
    match env.resolveTxt (str "_dmarc." ++ asciiDomain) with
    | .ok records =>
      records.any (fun rec => rec.any (fun txt => (str "v=DMARC1").isPrefixOf txt))
    | .error _ => false
  let health : DomainHealth :=
    { spf := spf, dkim := false, dmarc := dmarc, blacklisted := false,
      reputation := 50 }
  let health := { health with reputation := calculateDomainReputation domain health }
  { health with blacklisted := checkDomainBlacklists domain }

/-- Outcome record of `EmailValidator.testSMTPDeliverability`
(`deliverable`: `some true` = yes, `some false` = no, `none` = JS `null`,
i.e. unknown). -/
structure SMTPOutcome where
  deliverable : Option Bool
  reason : Str
  serverBanner : Option Str := none
  serverResponse : Option Str := none
  tlsSupported : Bool := false
  isCatchAll : Bool := false
deriving Repr, DecidableEq

/-- Client-side state of the SMTP dialogue: the `step` counter of the
source's data handler, the captured telemetry, and the log of commands
written to the socket. -/
structure SMTPConn where
  step : Nat := 0
  serverBanner : Option Str := none
  serverResponse : Option Str := none
  tlsSupported : Bool := false
  isCatchAll : Bool := false
  sent : List Str := []
deriving Repr, DecidableEq

/-- The random catch-all probe address `nonexistent-<Date.now()>@domain`. -/
def randomProbe (nowMs : Nat) (domain : Str) : Str :=
  str "nonexistent-" ++ natToStr nowMs ++ '@' :: domain

/-- The socket `data` handler of `testSMTPDeliverability`: advance the state
machine on one (trimmed) server response, either continuing (`inl`) or
resolving with an outcome (`inr`). -/
def smtpOnData (o : Options) (nowMs : Nat) (email domain : Str)
    (st : SMTPConn) (chunk : Str) : SMTPConn ⊕ SMTPOutcome :=
  let response := jsTrim chunk
  let st :=
    if st.step = 0 && (str "220").isPrefixOf response then
      { st with serverBanner := some response,
                tlsSupported := containsSub (str "tls") (jsToLower response) ||
                                containsSub (str "starttls") (jsToLower response) }
    else st
  if st.step = 0 && (str "220").isPrefixOf response then
    .inl { st with sent := st.sent ++ [str "HELO " ++ o.smtpFromDomain ++ str "\r\n"],
                   step := 1 }
  else if st.step = 1 && (str "250").isPrefixOf response then
    .inl { st with sent := st.sent ++
                     [str "MAIL FROM:<test@" ++ o.smtpFromDomain ++ str ">\r\n"],
                   step := 2 }
  else if st.step = 2 && (str "250").isPrefixOf response then
    .inl { st with sent := st.sent ++ [str "RCPT TO:<" ++ email ++ str ">\r\n"],
                   step := 3 }
  else if st.step = 3 then
    let st := { st with serverResponse := some response }
    if (str "250").isPrefixOf response then
      .inl { st with sent := st.sent ++
                       [str "RCPT TO:<" ++ randomProbe nowMs domain ++ str ">\r\n"],
                     step := 4 }
    else if (str "550").isPrefixOf response then
      .inr { deliverable := some false,
             reason := str "Email address rejected by server",
             serverBanner := st.serverBanner, serverResponse := st.serverResponse,
             tlsSupported := st.tlsSupported, isCatchAll := st.isCatchAll }
    else
      .inr { deliverable := none,
             reason := str "Uncertain - server response: " ++ response,
             serverBanner := st.serverBanner, serverResponse := st.serverResponse,
             tlsSupported := st.tlsSupported, isCatchAll := st.isCatchAll }
  else if st.step = 4 then
    let st := if (str "250").isPrefixOf response then { st with isCatchAll := true }
              else st
    .inr { deliverable := some true, reason := str "SMTP server accepts email",
           serverBanner := st.serverBanner, serverResponse := st.serverResponse,
           tlsSupported := st.tlsSupported, isCatchAll := st.isCatchAll }
  else .inl st

/-- Run the SMTP dialogue over the socket's event stream.  An exhausted
stream without a resolution is the whole-dialogue timeout; a socket error
resolves immediately. -/
def runSMTPEvents (o : Options) (nowMs : Nat) (email domain : Str) :
    SMTPConn → List SMTPEvent → SMTPOutcome
  | st, [] =>
    { deliverable := some false, reason := str "SMTP connection timeout",
      serverBanner := st.serverBanner, serverResponse := st.serverResponse,
      tlsSupported := st.tlsSupported, isCatchAll := st.isCatchAll }
  | st, .data chunk :: rest =>
    (match smtpOnData o nowMs email domain st chunk with
     | .inl st2 => runSMTPEvents o nowMs email domain st2 rest
     | .inr out => out)
  | st, .socketError msg :: _ =>
    { deliverable := some false,
      reason := str "SMTP connection error: " ++ msg,
      serverBanner := st.serverBanner, serverResponse := st.serverResponse,
      tlsSupported := st.tlsSupported, isCatchAll := st.isCatchAll }

/-- `EmailValidator.testSMTPDeliverability`: resolve the MX set, then drive
the dialogue with the primary MX (the connection itself is represented by
the environment's event stream). -/
def testSMTPDeliverability (env : Env) (o : Options) (email domain : Str) :
    SMTPOutcome :=
  match env.resolveMx (punycodeToASCII domain) with
  | .error msg =>
    { deliverable := some false, reason := str "SMTP test failed: " ++ msg }
  | .ok [] => { deliverable := some false, reason := str "No MX records found" }
  | .ok (_ :: _) =>
    runSMTPEvents o env.nowMs email domain {} env.smtpEvents

/-- The `factors` sub-record (`smtp` is dynamically retyped in the source
from `false` to the ternary deliverability value; modelled as `Option Bool`
initialized to `some false`). -/
structure Factors where
  format : Bool := false
  domain : Bool := false
  mx : Bool := false
  smtp : Option Bool := some false
  reputation : Int := 0
  deliverability : Int := 0
deriving Repr, DecidableEq

/-- The `ValidationResult` record assembled by `EmailValidator.validate`
(`validation_time` is wall-clock noise and modelled as the constant 0; the
trailing `errorMsg` models the extra `error` field of the bulk error
record). -/
structure ValidationResult where
  input : Str
  syntax_valid : Bool := false
  domain_valid : Bool := false
  mx_found : Bool := false
  smtp_deliverable : Option Bool := none
  disposable : Bool := false
  typo_detected : Bool := false
  suggestion : Option Str := none
  score : Int := 0
  status : Str := str "invalid"
  reason : Str := []
  factors : Factors := {}
  domainHealth : DomainHealth := {}
  normalized_email : Option Str := none
  is_role_based : Bool := false
  is_catch_all : Bool := false
  gmail_normalized : Option Str := none
  has_plus_alias : Bool := false
  validation_time : Int := 0
  checks_performed : List Str := []
  is_international : Bool := false
  idn_domain : Option Str := none
  has_typo : Bool := false
  typo_confidence : Int := 0
  is_free_provider : Bool := false
  is_business_email : Bool := false
  domain_age_days : Option Int := none
  smtp_server_response : Option Str := none
  smtp_server_banner : Option Str := none
  tls_supported : Bool := false
  advanced_heuristics_score : Int := 0
  errorMsg : Option Str := none
deriving Repr, DecidableEq

/-- The typo-penalty guard of `calculateScore`:
`result.typo_detected && result.suggestion && result.suggestion !== result.input`
(an empty suggestion string is falsy). -/
def typoPenaltyApplies (r : ValidationResult) : Bool :=
  r.typo_detected &&
  (match r.suggestion with
   | some s => !s.isEmpty && s != r.input
   | none => false)

/-- `EmailValidator.calculateScore`.  The accumulation is compiled to one
sum (no summand's guard depends on the running score).  The only
non-integer term is `(reputation - 50) / 5`; `Math.round(x) = ⌊x + 1/2⌋`,
so the result is `⌊(10·base + 2·(rep − 50) + 5) / 10⌋` (exact: the true
fractional parts are multiples of 1/5, so double rounding never strays). -/
def calculateScore (o : Options) (r : ValidationResult) : Int :=
  let base : Int :=
    (if r.syntax_valid then 25 else 0) +
    (if r.domain_valid then 20 else 0) +
    (if r.mx_found then 25 else 0) +
    (match r.smtp_deliverable with
     | some true => 20
     | none => 5
     | some false => 0) +
    ((if r.domainHealth.spf then 5 else 0) +
     (if r.domainHealth.dmarc then 7 else 0) +
     (if r.domainHealth.dkim then 3 else 0)) +
    (if r.advanced_heuristics_score > 70 then 10
     else if r.advanced_heuristics_score > 50 then 5 else 0) -
    (if r.disposable then (if o.strictScoring then 50 else 40) else 0) -
    (if r.domainHealth.blacklisted then (if o.strictScoring then 60 else 50) else 0) -
    (if r.is_role_based then (if o.strictScoring then 25 else 15) else 0) -
    (if r.is_free_provider then (if o.strictScoring then 10 else 5) else 0) -
    (if typoPenaltyApplies r then (if o.strictScoring then 25 else 15) else 0) +
    (if r.tls_supported then 5 else 0) +
    (if r.is_business_email then 10 else 0)
  max 0 (min 100 (Int.fdiv (10 * base + 2 * (r.domainHealth.reputation - 50) + 5) 10))

/-- `m` consecutive characters satisfying `p` occur somewhere (regexes of
the shape `/p{m,}/`). -/
def hasRun (p : Char → Bool) (m : Nat) : Str → Bool
  | [] => m = 0
  | c :: rest => ((c :: rest).takeWhile p).length ≥ m || hasRun p m rest

/-- `EmailValidator.calculateReputationScore` (the `(rep − 50) / 2` term is
floated and `Math.round`ed exactly as in `calculateScore`). -/
def calculateReputationScore (p : ParsedEmail) (r : ValidationResult) : Int :=
  let lp := p.localPart
  let base : Int :=
    50 -
    (if containsSub (str "noreply") lp || containsSub (str "no-reply") lp
     then 20 else 0) -
    (if containsSub (str "test") lp || containsSub (str "demo") lp
     then 15 else 0) -
    (if hasRun jsIsDigit 5 lp then 10 else 0) -
    (if lp.length < 3 then 10 else 0) -
    (if lp.length > 20 then 5 else 0)
  max 0 (min 100 (Int.fdiv (2 * base + (r.domainHealth.reputation - 50) + 1) 2))

/-- The canonical Gmail local part: remove dots, cut at the first `+`,
lowercase (in this order, as in `normalizeGmail`). -/
def gmailCanon (localPart : Str) : Str :=
  jsToLower ((localPart.filter (fun c => c ≠ '.')).takeWhile (fun c => c ≠ '+'))

/-- `EmailValidator.normalizeGmail`. -/
def normalizeGmail (o : Options) (localPart domain : Str) : Option Str :=
  if !o.enableGmailNormalization then none
  else if !([str "gmail.com", str "googlemail.com"].contains (jsToLower domain)) then
    none
  else some (gmailCanon localPart ++ str "@gmail.com")

/-- `EmailValidator.roleBasedPatterns`: the anchored `/^name@/i` prefixes.
Against a local part (which contains no `@`) none of these can match; the
embedding keeps the test as written. -/
def roleBasedPrefixes : List Str :=
  [ str "abuse@", str "admin@", str "administrator@", str "billing@",
    str "compliance@", str "contact@", str "info@", str "inquiry@",
    str "it@", str "help@", str "hostmaster@", str "list@",
    str "marketing@", str "news@", str "noreply@", str "no-reply@",
    str "null@", str "operations@", str "postmaster@", str "privacy@",
    str "registrar@", str "root@", str "sales@", str "security@",
    str "support@", str "sysadmin@", str "tech@", str "test@",
    str "testing@", str "trouble@", str "undisclosed@", str "unsubscribe@",
    str "usenet@", str "uucp@", str "webmaster@", str "www@" ]

/-- `EmailValidator.isRoleBased`. -/
def isRoleBased (o : Options) (localPart : Str) : Bool :=
  o.enableRoleBasedDetection &&
  roleBasedPrefixes.any (fun p => p.isPrefixOf (jsToLower localPart))

/-- `EmailValidator.isFreeProvider`'s provider list (with the source's
duplicate entries kept). -/
def freeProviders : List Str :=
  [ str "gmail.com", str "googlemail.com", str "yahoo.com", str "yahoo.co.uk",
    str "yahoo.in", str "hotmail.com", str "outlook.com", str "live.com",
    str "msn.com", str "icloud.com", str "me.com", str "mac.com",
    str "aol.com", str "protonmail.com", str "tutanota.com", str "zoho.com",
    str "yandex.com", str "mail.com", str "gmx.com", str "gmx.net",
    str "fastmail.com", str "hushmail.com", str "lycos.com", str "inbox.com",
    str "mail.ru", str "rambler.ru", str "qq.com", str "163.com",
    str "126.com", str "sina.com", str "sohu.com", str "tom.com",
    str "yeah.net", str "foxmail.com", str "vip.163.com", str "vip.126.com",
    str "vip.sina.com", str "vip.qq.com", str "vip.sohu.com",
    str "vip.tom.com", str "vip.yeah.net", str "vip.foxmail.com",
    str "vip.mail.ru", str "vip.rambler.ru", str "vip.qq.com",
    str "vip.163.com", str "vip.126.com", str "vip.sina.com",
    str "vip.sohu.com", str "vip.tom.com", str "vip.yeah.net",
    str "vip.foxmail.com", str "vip.mail.ru", str "vip.rambler.ru" ]

/-- `EmailValidator.isFreeProvider`. -/
def isFreeProvider (domain : Str) : Bool :=
  freeProviders.contains (jsToLower domain)

/-- `^.{1,2}[0-9]+$` (`.` modelled as any character). -/
def shortPrefixDigits (l : Str) : Bool :=
  (l.length ≥ 2 && (l.drop 1).all jsIsDigit) ||
  (l.length ≥ 3 && (l.drop 2).all jsIsDigit)

/-- `^[a-zA-Z]{1,2}\d{4,}$`. -/
def alphaPrefixDigits (l : Str) : Bool :=
  (l.length ≥ 5 && (l.take 1).all jsIsAlpha && (l.drop 1).all jsIsDigit) ||
  (l.length ≥ 6 && (l.take 2).all jsIsAlpha && (l.drop 2).all jsIsDigit)

/-- `/-[a-z]{2,}-/`: a hyphen, two or more lowercase letters, a hyphen. -/
def hyphenWordHyphen : Str → Bool
  | [] => false
  | c :: rest =>
    (c = '-' &&
      (let w := rest.takeWhile (fun c2 => 'a' ≤ c2 && c2 ≤ 'z')
       w.length ≥ 2 && ['-'].isPrefixOf (rest.drop w.length))) ||
    hyphenWordHyphen rest

/-- Three identical consecutive characters occur (`/(.)\1{2,}/`). -/
def hasRepeat3 : Str → Bool
  | a :: b :: c :: rest => (a = b && b = c) || hasRepeat3 (b :: c :: rest)
  | _ => false

/-- `EmailValidator.calculateAdvancedHeuristics`. -/
def calculateAdvancedHeuristics (localPart domain : Str)
    (r : ValidationResult) : Int :=
  let tld := (splitChar '.' domain).getLastD []
  let advTlds := [str ".tk", str ".ml", str ".ga", str ".cf", str ".gq",
                  str ".top", str ".click", str ".download"]
  let domainParts := splitChar '.' domain
  let commonWords := [str "admin", str "user", str "contact", str "info",
                      str "support", str "sales", str "marketing"]
  let specialChars :=
    (localPart.filter
      (fun c => !(jsIsAlnum c || c = '.' || c = '_' || c = '+' || c = '-'))).length
  let base : Int :=
    50 -
    (if localPart.length < 3 then 15 else 0) -
    (if localPart.length > 30 then 10 else 0) -
    (if !localPart.isEmpty && localPart.all jsIsDigit then 25 else 0) -
    (if shortPrefixDigits localPart then 15 else 0) -
    (if alphaPrefixDigits localPart then 20 else 0) -
    (if domain.length < 4 then 20 else 0) -
    (if domain.length > 30 then 5 else 0) -
    (if hasRun jsIsDigit 3 domain then 15 else 0) -
    (if hyphenWordHyphen domain then 10 else 0) -
    (if advTlds.contains ('.' :: tld) then 30 else 0) -
    (if domainParts.length > 4 then 10 else 0) -
    (if domainParts.any (fun part => part.length < 2) then 15 else 0) -
    (if specialChars > 2 then 20 else 0) -
    (if hasRepeat3 localPart then 15 else 0) -
    (if hasRun jsIsDigit 6 localPart then 20 else 0) -
    (if commonWords.contains (jsToLower localPart) then 10 else 0) -
    (if r.disposable then 40 else 0) -
    (if r.is_role_based then 15 else 0) -
    (if r.typo_detected then 25 else 0) -
    (if r.domainHealth.blacklisted then 50 else 0) +
    (if r.domainHealth.spf then 10 else 0) +
    (if r.domainHealth.dmarc then 15 else 0) +
    (if r.tls_supported then 10 else 0)
  max 0 (min 100 base)

/-- `EmailValidator.normalizeEmail`. -/
def normalizeEmail (o : Options) (email localPart domain : Str) : Str :=
  let normalized := jsToLower email
  if o.enableGmailNormalization then
    match normalizeGmail o localPart domain with
    | some g => g
    | none => jsTrim normalized
  else jsTrim normalized

/-- The freshly initialized result record of `validate`. -/
def initResult (email : Str) : ValidationResult := { input := email }

/-- Step 1 — syntax validation (early `return` modelled as `.error`). -/
def syntaxStage (o : Options) (email : Str) (r : ValidationResult) :
    Except ValidationResult ValidationResult :=
  if o.checkSyntax then
    let r := { r with checks_performed := r.checks_performed ++ [str "syntax"] }
    let syntaxResult := validateRFC o email
    let r := { r with syntax_valid := syntaxResult.valid,
                      factors := { r.factors with format := syntaxResult.valid } }
    if !syntaxResult.valid then .error { r with reason := syntaxResult.reason }
    else .ok r
  else .ok r

/-- Decompose the address (`parseEmail`; `null` is an early return). -/
def parseStage (o : Options) (email : Str) (r : ValidationResult) :
    Except ValidationResult (ValidationResult × ParsedEmail) :=
  match parseEmail o email with
  | none => .error { r with reason := str "Failed to parse email components" }
  | some p => .ok (r, p)

/-- The block of "hardcore validation features" computed right after
parsing. -/
def enrichStage (env : Env) (o : Options) (email : Str) (p : ParsedEmail)
    (r : ValidationResult) : ValidationResult :=
  { r with
    normalized_email := some (normalizeEmail o email p.localPart p.domain),
    is_role_based := isRoleBased o p.localPart,
    has_plus_alias := p.localPart.contains '+',
    gmail_normalized := normalizeGmail o p.localPart p.domain,
    is_international := isInternationalDomain p.domain,
    idn_domain := if isInternationalDomain p.domain
                  then some (punycodeToASCII p.domain) else none,
    is_free_provider := isFreeProvider p.domain,
    is_business_email := isBusinessEmail env.disposableCorpus p.domain }

/-- Step 2 — typo detection against the known-corrections mapping only
(note: the stage re-splits the raw input, shadowing the parsed parts). -/
def typoStage (o : Options) (email : Str) (r : ValidationResult) :
    ValidationResult :=
  if o.checkTypos then
    let r := { r with checks_performed := r.checks_performed ++ [str "typos"] }
    let parts := splitChar '@' email
    let localPart := parts.headD []
    match parts.get? 1 with
    | none => r
    | some domain =>
      if domain.isEmpty then r
      else
        match lookupCorrection (jsToLower domain) with
        | some corrected =>
          { r with typo_detected := true,
                   suggestion := some (localPart ++ '@' :: corrected) }
        | none => r
  else r

/-- Step 3 — disposable detection. -/
def disposableStage (env : Env) (o : Options) (domain : Str)
    (r : ValidationResult) : ValidationResult :=
  if o.checkDisposable then
    let r := { r with checks_performed := r.checks_performed ++ [str "disposable"] }
    let d := isDisposable env.disposableCorpus domain
    let r := { r with disposable := d }
    if d then { r with factors := { r.factors with reputation := -20 } } else r
  else r

/-- Step 4 — domain resolution (failure is an early return). -/
def domainStage (env : Env) (o : Options) (domain : Str)
    (r : ValidationResult) : Except ValidationResult ValidationResult :=
  if o.checkDomain then
    let r := { r with checks_performed := r.checks_performed ++ [str "domain"] }
    let domainResult := validateDomainV env domain
    let r := { r with domain_valid := domainResult.valid,
                      factors := { r.factors with domain := domainResult.valid } }
    if !domainResult.valid then .error { r with reason := domainResult.reason }
    else .ok r
  else .ok r

/-- Step 5 — MX lookup. -/
def mxStage (env : Env) (o : Options) (domain : Str) (r : ValidationResult) :
    ValidationResult :=
  if o.checkMX then
    let r := { r with checks_performed := r.checks_performed ++ [str "mx"] }
    let mxResult := checkMXRecordsV env domain
    { r with
      mx_found := mxResult.found,
      factors := { r.factors with
                     mx := mxResult.found,
                     deliverability := mxResult.deliverabilityScore } }
  else r

/-- Step 6 — SMTP probe (only when MX was found). -/
def smtpStage (env : Env) (o : Options) (email domain : Str)
    (r : ValidationResult) : ValidationResult :=
  if o.checkSMTP && r.mx_found then
    let r := { r with checks_performed := r.checks_performed ++ [str "smtp"] }
    let s := testSMTPDeliverability env o email domain
    { r with smtp_deliverable := s.deliverable,
             factors := { r.factors with smtp := s.deliverable },
             is_catch_all := s.isCatchAll,
             smtp_server_response := s.serverResponse,
             smtp_server_banner := s.serverBanner,
             tls_supported := s.tlsSupported }
  else r

/-- Step 7 — domain health. -/
def healthStage (env : Env) (domain : Str) (r : ValidationResult) :
    ValidationResult :=
  { r with checks_performed := r.checks_performed ++ [str "domain_health"],
           domainHealth := checkDomainHealthV env domain }

/-- Step 8 — advanced heuristics. -/
def heuristicsStage (o : Options) (p : ParsedEmail) (r : ValidationResult) :
    ValidationResult :=
  if o.enableAdvancedHeuristics then
    { r with checks_performed := r.checks_performed ++ [str "heuristics"],
             advanced_heuristics_score :=
               calculateAdvancedHeuristics p.localPart p.domain r }
  else r

/-- Step 9 — score, reputation factor, and the final status chain
(evaluated top-down, first match wins). -/
def finalizeStatus (o : Options) (p : ParsedEmail) (r : ValidationResult) :
    ValidationResult :=
  let r := { r with score := calculateScore o r }
  let r := { r with factors :=
               { r.factors with reputation := calculateReputationScore p r } }
  if r.disposable then
    { r with status := str "risky",
             reason := str "Disposable email address detected" }
  else if r.domainHealth.blacklisted then
    { r with status := str "invalid", reason := str "Domain is blacklisted" }
  else if !r.syntax_valid || !r.domain_valid then
    { r with status := str "invalid",
             reason := str "Invalid email format or domain" }
  else if !r.mx_found then
    { r with status := str "invalid",
             reason := str "Domain cannot receive emails (no MX records)" }
  else if r.score ≥ (if o.strictScoring then 90 else 85) then
    { r with status := str "valid",
             reason := str "Email appears to be valid and deliverable" }
  else if r.score ≥ (if o.strictScoring then 70 else 65) then
    { r with status := str "risky",
             reason := str "Email may be risky - proceed with caution" }
  else
    { r with status := str "invalid",
             reason := str "Email is likely invalid or undeliverable" }

/-- The body of `EmailValidator.validate`, with JavaScript's early
`return result` statements modelled as the `.error` branch of `Except`. -/
def validateGo (env : Env) (o : Options) (email : Str) :
    Except ValidationResult ValidationResult := do
  let r := initResult email
  let r ← syntaxStage o email r
  let rp ← parseStage o email r
  let r := enrichStage env o email rp.2 rp.1
  let r := typoStage o email r
  let r := disposableStage env o rp.2.domain r
  let r ← domainStage env o rp.2.domain r
  let r := mxStage env o rp.2.domain r
  let r := smtpStage env o email rp.2.domain r
  let r := healthStage env rp.2.domain r
  let r := heuristicsStage o rp.2 r
  pure (finalizeStatus o rp.2 r)

/-- `EmailValidator.validate`: every path — early return or completed
pipeline — yields a `ValidationResult` (the outer `try/catch` of the source
converts the remaining failure modes to a result as well). -/
def validate (env : Env) (o : Options) (email : Str) : ValidationResult :=
  match validateGo env o email with
  | .ok r => r
  | .error r => r

/-- An environment in which every network call fails and the SMTP socket
delivers nothing. -/
def failEnv : Env :=
  { dnsLookup := fun _ => .error (str "ENOTFOUND")
    resolveMx := fun _ => .error (str "ENOTFOUND")
    resolve4 := fun _ => .error (str "ENOTFOUND")
    resolveTxt := fun _ => .error (str "ENODATA")
    smtpEvents := []
    nowMs := 0
    disposableCorpus := knownDisposableDomains }

/-- A healthy environment for a well-served domain: DNS resolves, one MX
record, SPF and DMARC present, and an SMTP dialogue that accepts the
recipient and rejects the random catch-all probe. -/
def okEnv : Env :=
  { dnsLookup := fun _ => .ok ()
    resolveMx := fun _ => .ok [{ priority := 10, exchange := str "mx.example.org" }]
    resolve4 := fun _ => .ok ()
    resolveTxt := fun d =>
      if (str "_dmarc.").isPrefixOf d then .ok [[str "v=DMARC1; p=none"]]
      else .ok [[str "v=spf1 -all"]]
    smtpEvents := [SMTPEvent.data (str "220 mx ready"),
                   SMTPEvent.data (str "250 hello"),
                   SMTPEvent.data (str "250 sender ok"),
                   SMTPEvent.data (str "250 recipient ok"),
                   SMTPEvent.data (str "550 no such user")]
    nowMs := 1700000000000
    disposableCorpus := knownDisposableDomains }

example : (validate okEnv defaultOptions (str "john@gmail.com")).status =
    str "valid" := by decide
example : (validate okEnv defaultOptions (str "john@gmail.com")).score = 100 := by
  decide
example : (validate failEnv defaultOptions (str "a.b@gmail.com")).gmail_normalized =
    some (str "ab@gmail.com") := by decide
example : (validate failEnv defaultOptions (str "bad")).checks_performed =
    [str "syntax"] := by decide

/-! ## BulkValidator (`bulkValidator.js`) -/

/-- The bulk scheduler's options (`batchSize` comes from options or the
environment; the source's loop never terminates when it is 0, so the
chunking model and the theorems assume a positive size). -/
structure BulkOptions where
  skipDuplicates : Bool := true
  enableCache : Bool := true
  batchSize : Nat := 10
deriving Repr, DecidableEq

/-- `[...new Set(l)]` kernel: keep elements not seen before. -/
def jsSetDedupAux (seen : List Str) : List Str → List Str
  | [] => []
  | x :: xs =>
    if seen.contains x then jsSetDedupAux seen xs
    else x :: jsSetDedupAux (seen ++ [x]) xs

/-- `[...new Set(l)]`: first-occurrence deduplication, order preserved. -/
def jsSetDedup (l : List Str) : List Str := jsSetDedupAux [] l

/-- Fuel-driven chunking kernel (the fuel is an upper bound on the number
of chunks; `l.length` always suffices for a positive chunk size). -/
def chunksOfAux (bs : Nat) : Nat → List Str → List (List Str)
  | _, [] => []
  | 0, _ :: _ => []
  | fuel + 1, x :: xs =>
    if bs = 0 then []
    else (x :: xs).take bs :: chunksOfAux bs fuel ((x :: xs).drop bs)

/-- Split into consecutive chunks of `bs` elements (the batching loop). -/
def chunksOf (bs : Nat) (l : List Str) : List (List Str) :=
  chunksOfAux bs l.length l

/-- Lookup in the bulk cache (an association list keyed by the lowercased
address). -/
def cacheLookup (cacheL : List (Str × ValidationResult)) (k : Str) :
    Option ValidationResult :=
  (cacheL.find? (fun kv => kv.1 = k)).map (·.2)

/-- `BulkValidator.processBatch` over one chunk: all of the chunk's
`validateSingleEmail` calls read the cache synchronously (before any of
them completes), so lookups see the cache as of the chunk's start and the
misses' results are stored afterwards.  `Promise.allSettled` keeps the
chunk's order; with the total model of `validate` no promise rejects, so
the error-record branch is dead. -/
def processChunk (env : Env) (o : Options) (bo : BulkOptions)
    (cacheL : List (Str × ValidationResult)) (chunk : List Str) :
    List ValidationResult × List (Str × ValidationResult) :=
  let results := chunk.map (fun e =>
    if bo.enableCache then
      match cacheLookup cacheL (jsToLower e) with
      | some r => r
      | none => validate env o e
    else validate env o e)
  let stores := chunk.filterMap (fun e =>
    if bo.enableCache ∧ (cacheLookup cacheL (jsToLower e)).isNone then
      some (jsToLower e, validate env o e)
    else none)
  (results, stores)

/-- Process the chunks in order, threading the bulk cache. -/
def runChunks (env : Env) (o : Options) (bo : BulkOptions) :
    List (List Str) → List (Str × ValidationResult) → List ValidationResult
  | [], _ => []
  | chunk :: rest, cacheL =>
    let pr := processChunk env o bo cacheL chunk
    pr.1 ++ runChunks env o bo rest (cacheL ++ pr.2)

/-- The record returned by `BulkValidator.validateBatch` (the summary and
performance fields are derived views of `results` and are not modelled;
`processBatch` never rejects in the model, so `errors` is empty). -/
structure BulkReport where
  total : Nat
  processed : Nat
  duplicates_removed : Nat
  results : List ValidationResult
  errors : List Str := []
deriving Repr, DecidableEq

/-- `BulkValidator.validateBatch`, starting from the given initial cache
(`[]` for a fresh process). -/
def validateBatch (env : Env) (o : Options) (bo : BulkOptions)
    (cache0 : List (Str × ValidationResult)) (emails : List Str) : BulkReport :=
  let uniqueEmails :=
    if bo.skipDuplicates then jsSetDedup (emails.map jsToLower) else emails
  let results := runChunks env o bo (chunksOf bo.batchSize uniqueEmails) cache0
  { total := emails.length
    processed := results.length
    duplicates_removed := emails.length - uniqueEmails.length
    results := results }

example :
    ((validateBatch failEnv defaultOptions { batchSize := 10 } []
        [str "X@y.com"]).results.map ValidationResult.input) = [str "x@y.com"] := by
  decide
example :
    ((validateBatch failEnv defaultOptions
        { skipDuplicates := false, batchSize := 1 } []
        [str "A@y.com", str "a@y.com"]).results.map ValidationResult.input) =
      [str "A@y.com", str "A@y.com"] := by decide

/-! ## Definitions taken from the specification's words (for refinement
claims), and concrete boundary inputs -/

/-- The §4.7 weighted sum exactly as claim C2 states it (no heuristics
bonus, no rounding, typo penalty whenever a suggestion is present), over
exact rationals. -/
def specScoreC2 (r : ValidationResult) (strict : Bool) : ℚ :=
  let s : ℚ :=
    (if r.syntax_valid then 25 else 0) +
    (if r.domain_valid then 20 else 0) +
    (if r.mx_found then 25 else 0) +
    (match r.smtp_deliverable with
     | some true => 20
     | none => 5
     | some false => 0) +
    (if r.domainHealth.spf then 5 else 0) +
    (if r.domainHealth.dmarc then 7 else 0) +
    (if r.domainHealth.dkim then 3 else 0) -
    (if r.disposable then (if strict then 50 else 40) else 0) -
    (if r.domainHealth.blacklisted then (if strict then 60 else 50) else 0) -
    (if r.is_role_based then (if strict then 25 else 15) else 0) -
    (if r.is_free_provider then (if strict then 10 else 5) else 0) -
    (if r.typo_detected ∧ r.suggestion.isSome then (if strict then 25 else 15) else 0) +
    (if r.tls_supported then 5 else 0) +
    ((r.domainHealth.reputation : ℚ) - 50) / 5 +
    (if r.is_business_email then 10 else 0)
  max 0 (min 100 s)

/-- The weighted sum of the amended claim C2: the §4.7 terms plus the
advanced-heuristics bonus (+10 above 70, +5 above 50), with the typo
penalty applied only when a non-empty suggestion differs from the input. -/
def specScoreC2AmendedSum (r : ValidationResult) (strict : Bool) : ℚ :=
  (if r.syntax_valid then 25 else 0) +
  (if r.domain_valid then 20 else 0) +
  (if r.mx_found then 25 else 0) +
  (match r.smtp_deliverable with
   | some true => 20
   | none => 5
   | some false => 0) +
  (if r.domainHealth.spf then 5 else 0) +
  (if r.domainHealth.dmarc then 7 else 0) +
  (if r.domainHealth.dkim then 3 else 0) +
  (if r.advanced_heuristics_score > 70 then 10
   else if r.advanced_heuristics_score > 50 then 5 else 0) -
  (if r.disposable then (if strict then 50 else 40) else 0) -
  (if r.domainHealth.blacklisted then (if strict then 60 else 50) else 0) -
  (if r.is_role_based then (if strict then 25 else 15) else 0) -
  (if r.is_free_provider then (if strict then 10 else 5) else 0) -
  (if (r.typo_detected &&
       (match r.suggestion with
        | some s => !s.isEmpty && s != r.input
        | none => false)) then (if strict then 25 else 15) else 0) +
  (if r.tls_supported then 5 else 0) +
  (if r.is_business_email then 10 else 0) +
  ((r.domainHealth.reputation : ℚ) - 50) / 5

/-- Amended claim C2's score: the sum above, rounded half-up
(`Math.round(x) = ⌊x + 1/2⌋`), clamped to `[0, 100]`. -/
def specScoreC2Amended (r : ValidationResult) (strict : Bool) : Int :=
  max 0 (min 100 ⌊specScoreC2AmendedSum r strict + 1 / 2⌋)

/-- A result whose advanced-heuristics score is 80: the code adds a +10
bonus that the C2 formula does not mention. -/
def c2rHeur : ValidationResult :=
  { input := str "a@b.co", syntax_valid := true, domain_valid := true,
    mx_found := true, smtp_deliverable := some true,
    domainHealth := { reputation := 50 },
    advanced_heuristics_score := 80 }

/-- A result with a detected typo whose suggestion equals the input: the
code skips the typo penalty, the C2 formula applies it. -/
def c2rTypo : ValidationResult :=
  { input := str "x@y.com", syntax_valid := true, typo_detected := true,
    suggestion := some (str "x@y.com"),
    domainHealth := { reputation := 50 } }

/-- A result with reputation 52: the C2 weighted sum is the non-integer
30.4, while the code returns the rounded integer 30. -/
def c2rFrac : ValidationResult :=
  { input := str "a@b.co", syntax_valid := true,
    domainHealth := { reputation := 52 } }

/-- A total-length-320 address with a 64-byte local part; its domain
necessarily has 255 bytes.  Every label is well-formed (≤ 63 bytes,
alphanumeric, no hyphens) and the TLD is `com`: the address is valid in
every respect except the length rules. -/
def c4Email320 : Str :=
  List.replicate 64 'a' ++ '@' ::
    (List.replicate 63 'a' ++ '.' :: List.replicate 63 'a' ++ '.' ::
     List.replicate 63 'a' ++ '.' :: List.replicate 29 'a' ++ '.' ::
     List.replicate 29 'a' ++ str ".com")

/-- A total-length-318 address with a 64-byte local part and a 253-byte
domain — the largest shape the parser accepts. -/
def c4Email318 : Str :=
  List.replicate 64 'a' ++ '@' ::
    (List.replicate 63 'a' ++ '.' :: List.replicate 63 'a' ++ '.' ::
     List.replicate 63 'a' ++ '.' :: List.replicate 28 'a' ++ '.' ::
     List.replicate 28 'a' ++ str ".com")

example : c4Email320.length = 320 := by decide
example : c4Email318.length = 318 := by decide
example : (validateRFC defaultOptions c4Email318).valid = true := by decide
example : (validateRFC defaultOptions c4Email320).valid = false := by decide


/-! ## Character and string lemmas -/

theorem toNat_ofNatAux (n : Nat) (h : n.isValidChar) :
    (Char.ofNatAux n h).toNat = n := by
  simp [Char.ofNatAux, Char.toNat, UInt32.toNat, UInt32.ofNatCore]

theorem char_eq_iff_toNat (a b : Char) : a = b ↔ a.toNat = b.toNat := by
  constructor
  · intro h
    rw [h]
  · intro h
    exact Char.eq_of_val_eq (UInt32.eq_of_val_eq (Fin.ext h))

theorem jsToLowerChar_toNat (c : Char) :
    (jsToLowerChar c).toNat =
      if 65 ≤ c.toNat ∧ c.toNat ≤ 90 then c.toNat + 32 else c.toNat := by
  unfold jsToLowerChar
  by_cases h : 65 ≤ c.toNat ∧ c.toNat ≤ 90
  · rw [if_pos h, if_pos h]
    have hv : (c.toNat + 32).isValidChar := by
      left
      omega
    unfold Char.ofNat
    rw [dif_pos hv]
    exact toNat_ofNatAux _ hv
  · rw [if_neg h, if_neg h]

theorem jsToLowerChar_idem (c : Char) :
    jsToLowerChar (jsToLowerChar c) = jsToLowerChar c := by
  rw [char_eq_iff_toNat, jsToLowerChar_toNat (jsToLowerChar c),
      jsToLowerChar_toNat c]
  by_cases h : 65 ≤ c.toNat ∧ c.toNat ≤ 90
  · rw [if_pos h, if_neg (by omega : ¬(65 ≤ c.toNat + 32 ∧ c.toNat + 32 ≤ 90))]
  · rw [if_neg h, if_neg h]

theorem jsToLower_idem (s : Str) : jsToLower (jsToLower s) = jsToLower s := by
  unfold jsToLower
  rw [List.map_map]
  exact List.map_congr_left (fun c _ => jsToLowerChar_idem c)

theorem jsIsWs_iff (c : Char) :
    jsIsWs c = true ↔
      (c.toNat = 32 ∨ c.toNat = 9 ∨ c.toNat = 10 ∨ c.toNat = 11 ∨
       c.toNat = 12 ∨ c.toNat = 13) := by
  unfold jsIsWs
  rw [decide_eq_true_iff, char_eq_iff_toNat]
  have hsp : (' ' : Char).toNat = 32 := rfl
  rw [hsp]

theorem jsIsWs_lower (c : Char) : jsIsWs (jsToLowerChar c) = jsIsWs c := by
  rw [Bool.eq_iff_iff, jsIsWs_iff, jsIsWs_iff, jsToLowerChar_toNat]
  by_cases h : 65 ≤ c.toNat ∧ c.toNat ≤ 90
  · rw [if_pos h]
    omega
  · rw [if_neg h]

/-- Lowercasing cannot create or destroy an occurrence of a character that
is neither an uppercase nor a lowercase letter (e.g. `.`, `@`, `+`). -/
theorem jsToLowerChar_eq_iff (c d : Char)
    (hd1 : ¬(65 ≤ d.toNat ∧ d.toNat ≤ 90))
    (hd2 : ¬(97 ≤ d.toNat ∧ d.toNat ≤ 122)) :
    (jsToLowerChar c = d) ↔ c = d := by
  rw [char_eq_iff_toNat, char_eq_iff_toNat, jsToLowerChar_toNat c]
  by_cases h : 65 ≤ c.toNat ∧ c.toNat ≤ 90
  · rw [if_pos h]
    omega
  · rw [if_neg h]

theorem dropWhile_invol (p : Char → Bool) (l : Str) :
    (l.dropWhile p).dropWhile p = l.dropWhile p := by
  induction l with
  | nil => rfl
  | cons c t ih =>
    by_cases h : p c
    · rw [List.dropWhile_cons_of_pos h]
      exact ih
    · rw [List.dropWhile_cons_of_neg h, List.dropWhile_cons_of_neg h]

theorem dropWhile_head_false (p : Char → Bool) (l : Str) :
    ∀ {x : Char} {t : Str}, l.dropWhile p = x :: t → p x = false := by
  induction l with
  | nil =>
    intro x t h
    cases h
  | cons c r ih =>
    intro x t h
    by_cases hc : p c
    · rw [List.dropWhile_cons_of_pos hc] at h
      exact ih h
    · rw [List.dropWhile_cons_of_neg hc] at h
      cases h
      simpa using hc

theorem jsTrim_idem (s : Str) : jsTrim (jsTrim s) = jsTrim s := by
  unfold jsTrim
  have hbd :
      (((s.dropWhile jsIsWs).reverse.dropWhile jsIsWs).reverse).dropWhile jsIsWs
        = ((s.dropWhile jsIsWs).reverse.dropWhile jsIsWs).reverse := by
    cases hbb : ((s.dropWhile jsIsWs).reverse.dropWhile jsIsWs).reverse with
    | nil => rfl
    | cons x t =>
      have ha :
          x :: t ++ ((s.dropWhile jsIsWs).reverse.takeWhile jsIsWs).reverse
            = s.dropWhile jsIsWs := by
        rw [← hbb, ← List.reverse_append, List.takeWhile_append_dropWhile,
            List.reverse_reverse]
      have hx : jsIsWs x = false := dropWhile_head_false jsIsWs s ha.symm
      rw [List.dropWhile_cons_of_neg (by simp [hx])]
  rw [hbd, List.reverse_reverse, dropWhile_invol]

theorem comp_ws_lower : (jsIsWs ∘ jsToLowerChar) = jsIsWs := funext jsIsWs_lower

theorem jsToLower_dropWhile (y : Str) :
    jsToLower (y.dropWhile jsIsWs) = (jsToLower y).dropWhile jsIsWs := by
  unfold jsToLower
  rw [List.dropWhile_map, comp_ws_lower]

theorem jsToLower_reverse (y : Str) :
    jsToLower y.reverse = (jsToLower y).reverse := by
  unfold jsToLower
  rw [← List.map_reverse]

theorem jsToLower_trim (s : Str) :
    jsToLower (jsTrim s) = jsTrim (jsToLower s) := by
  unfold jsTrim
  rw [jsToLower_reverse, jsToLower_dropWhile, jsToLower_reverse,
      jsToLower_dropWhile]

theorem normDomain_idem (d : Str) :
    jsTrim (jsToLower (jsTrim (jsToLower d))) = jsTrim (jsToLower d) := by
  rw [jsToLower_trim, jsToLower_idem, jsTrim_idem]

/-- Claim C10 — the disposable classifier is invariant under case and
surrounding whitespace: for every domain string `d`, `isDisposable(d)`
returns the same value as `isDisposable` applied to the lowercased, trimmed
form of `d`, because the input is normalized before any blocklist, pattern,
subdomain, TLD or heuristic check.  Holds for every loaded blocklist. -/
theorem C10_isDisposable_normalization_invariant (corpus : List Str)
    (domain : Str) :
    isDisposable corpus domain =
      isDisposable corpus (jsTrim (jsToLower domain)) := by
  unfold isDisposable
  rw [normDomain_idem]

/-! ## `splitChar` lemmas -/

theorem splitChar_ne_nil (sep : Char) (s : Str) : splitChar sep s ≠ [] := by
  cases s with
  | nil => simp [splitChar]
  | cons c rest =>
    simp only [splitChar]
    by_cases h : c = sep
    · simp [h]
    · simp only [if_neg h]
      cases splitChar sep rest <;> simp

theorem splitChar_of_notMem (sep : Char) (d : Str) (h : sep ∉ d) :
    splitChar sep d = [d] := by
  induction d with
  | nil => rfl
  | cons c rest ih =>
    simp only [splitChar]
    have hc : c ≠ sep := fun hh => h (hh ▸ List.mem_cons_self c rest)
    rw [if_neg hc, ih (fun hm => h (List.mem_cons_of_mem c hm))]

theorem splitChar_append_cons (sep : Char) (l t : Str) (h : sep ∉ l) :
    splitChar sep (l ++ sep :: t) = l :: splitChar sep t := by
  induction l with
  | nil => simp [splitChar]
  | cons c rest ih =>
    have hc : c ≠ sep := fun hh => h (hh ▸ List.mem_cons_self c rest)
    have hrest : sep ∉ rest := fun hm => h (List.mem_cons_of_mem c hm)
    show splitChar sep (c :: (rest ++ sep :: t)) = (c :: rest) :: splitChar sep t
    simp only [splitChar]
    rw [if_neg hc, ih hrest]

theorem splitChar_decomp (sep : Char) :
    ∀ s : Str, sep ∈ s →
      ∃ l t, s = l ++ sep :: t ∧ sep ∉ l ∧
        splitChar sep s = l :: splitChar sep t := by
  intro s
  induction s with
  | nil => intro h; cases h
  | cons c rest ih =>
    intro h
    by_cases hc : c = sep
    · refine ⟨[], rest, by rw [hc]; rfl, by simp, ?_⟩
      simp only [splitChar]
      rw [if_pos hc]
    · have hrest : sep ∈ rest := by
        cases List.mem_cons.mp h with
        | inl hh => exact absurd hh.symm hc
        | inr hh => exact hh
      obtain ⟨l, t, hs, hl, hsp⟩ := ih hrest
      refine ⟨c :: l, t, by rw [hs]; rfl, ?_, ?_⟩
      · intro hm
        cases List.mem_cons.mp hm with
        | inl hh => exact hc hh.symm
        | inr hh => exact hl hh
      · simp only [splitChar]
        rw [if_neg hc, hsp]

theorem count_append_cons (sep : Char) (l t : Str) :
    (l ++ sep :: t).count sep = l.count sep + t.count sep + 1 := by
  rw [List.count_append, List.count_cons_self]
  omega

theorem count_eq_zero_iff_notMem (sep : Char) (s : Str) :
    s.count sep = 0 ↔ sep ∉ s := List.count_eq_zero

/-- An `@`-count of exactly one splits the string into two `@`-free parts. -/
theorem count_one_decomp (sep : Char) (s : Str) (h : s.count sep = 1) :
    ∃ l t, s = l ++ sep :: t ∧ sep ∉ l ∧ sep ∉ t ∧
      splitChar sep s = [l, t] := by
  have hmem : sep ∈ s := by
    rw [← List.count_pos_iff, h]
    omega
  obtain ⟨l, t, hs, hl, hsp⟩ := splitChar_decomp sep s hmem
  have hcnt : l.count sep + t.count sep + 1 = 1 := by
    rw [← count_append_cons, ← hs, h]
  have hlz : l.count sep = 0 := by omega
  have htz : t.count sep = 0 := by omega
  have htm : sep ∉ t := (count_eq_zero_iff_notMem sep t).mp htz
  exact ⟨l, t, hs, hl, htm, by rw [hsp, splitChar_of_notMem sep t htm]⟩

/-! ## Claim C4 — length boundaries -/

theorem validateRFC_reject_of_long (o : Options) (e : Str)
    (h : 319 ≤ (jsTrim e).length) : (validateRFC o e).valid = false := by
  unfold validateRFC
  by_cases he : e.isEmpty
  · have : e = [] := by
      cases e with
      | nil => rfl
      | cons a b => simp [List.isEmpty] at he
    subst this
    have : jsTrim [] = [] := rfl
    rw [this] at h
    simp at h
  · simp only [he, Bool.false_eq_true, if_false]
    by_cases hlen : (jsTrim e).length > 320
    · rw [if_pos hlen]
    · rw [if_neg hlen]
      by_cases hat : (jsTrim e).count '@' = 1
      · simp only [hat]
        rw [if_neg (by omega : ¬(1 : Nat) ≠ 1)]
        obtain ⟨l, t, hs, hl, ht, hsp⟩ := count_one_decomp '@' (jsTrim e) hat
        rw [hsp]
        simp only [List.headD, List.getD, List.get?, Option.getD]
        have hlen2 : l.length + t.length + 1 = (jsTrim e).length := by
          rw [hs]
          simp
          omega
        by_cases hll : l.length > 64
        · have hlv : validateLocalPart o l =
              { valid := false, reason := str "Local part exceeds 64 characters" } := by
            unfold validateLocalPart
            rw [if_pos hll]
          rw [hlv]
          simp
        · have htl : t.length > 253 := by omega
          cases hlv : (validateLocalPart o l).valid with
          | false => simp [hlv]
          | true =>
            simp only [hlv, Bool.not_true, Bool.false_eq_true, if_false]
            have hdv : validateDomainPart t =
                { valid := false, reason := str "Domain exceeds 253 characters" } := by
              unfold validateDomainPart
              rw [if_pos htl]
            rw [hdv]
            simp
      · rw [if_pos hat]

theorem validateRFC_reject_of_long_local (o : Options) (l d : Str)
    (hl : '@' ∉ l) (hd : '@' ∉ d) (hlen : 65 ≤ l.length)
    (htrim : jsTrim (l ++ '@' :: d) = l ++ '@' :: d) :
    (validateRFC o (l ++ '@' :: d)).valid = false := by
  unfold validateRFC
  have hne : (l ++ '@' :: d).isEmpty = false := by
    cases l <;> simp [List.isEmpty]
  simp only [hne, Bool.false_eq_true, if_false]
  rw [htrim]
  by_cases h320 : (l ++ '@' :: d).length > 320
  · rw [if_pos h320]
  · rw [if_neg h320]
    have hcnt : (l ++ '@' :: d).count '@' = 1 := by
      rw [count_append_cons, (count_eq_zero_iff_notMem '@' l).mpr hl,
          (count_eq_zero_iff_notMem '@' d).mpr hd]
    simp only [hcnt]
    rw [if_neg (by omega : ¬(1 : Nat) ≠ 1)]
    rw [splitChar_append_cons '@' l d hl, splitChar_of_notMem '@' d hd]
    simp only [List.headD, List.getD, List.get?, Option.getD]
    have hlv : validateLocalPart o l =
        { valid := false, reason := str "Local part exceeds 64 characters" } := by
      unfold validateLocalPart
      rw [if_pos (by omega : l.length > 64)]
    rw [hlv]
    simp

/-- Claim C4, counterexample — there is no otherwise-valid accepted address
of total length 320 with a 64-byte local part: such an address necessarily
has a 255-byte domain, and the parser rejects every domain longer than 253
bytes.  `c4Email320` is valid in every respect other than the length rules
(well-formed labels, alphabetic 3-byte TLD), yet `validateRFC` rejects it,
refuting "addresses of length 320 with a 64-byte local part parse". -/
theorem C4_counterexample :
    c4Email320.length = 320 ∧
    ((splitChar '@' c4Email320).headD []).length = 64 ∧
    ((splitChar '@' c4Email320).getD 1 []).length = 255 ∧
    (validateRFC defaultOptions c4Email320).valid = false ∧
    (validateRFC defaultOptions c4Email320).reason =
      str "Domain exceeds 253 characters" := by decide

/-- Claim C4, amended — the real boundaries: an otherwise-valid address of
total length 318 with a 64-byte local part and 253-byte domain parses;
every input whose trimmed form has 319 or more characters is rejected (a
total length of 320 with a 64-byte local part forces a 255-byte domain,
over the 253-byte domain limit, so 318 — not 320 — is the acceptance
boundary); and every address whose local part has 65 or more bytes is
rejected. -/
theorem C4_length_boundaries_amended (o : Options) :
    (c4Email318.length = 318 ∧
     (validateRFC defaultOptions c4Email318).valid = true) ∧
    (∀ e : Str, 319 ≤ (jsTrim e).length → (validateRFC o e).valid = false) ∧
    (∀ l d : Str, '@' ∉ l → '@' ∉ d → 65 ≤ l.length →
       jsTrim (l ++ '@' :: d) = l ++ '@' :: d →
       (validateRFC o (l ++ '@' :: d)).valid = false) := by
  refine ⟨⟨by decide, by decide⟩, ?_, ?_⟩
  · intro e he
    exact validateRFC_reject_of_long o e he
  · intro l d hl hd hlen htrim
    exact validateRFC_reject_of_long_local o l d hl hd hlen htrim

/-- Witness for the amended C4 at concrete inputs: a 319-character
all-letter string and a 65-byte local part are both rejected. -/
theorem C4_length_boundaries_amended_witness :
    (validateRFC defaultOptions (List.replicate 319 'a')).valid = false ∧
    (validateRFC defaultOptions
        (List.replicate 65 'a' ++ '@' :: str "b.cd")).valid = false := by
  constructor
  · exact (C4_length_boundaries_amended defaultOptions).2.1
      (List.replicate 319 'a') (by decide)
  · exact (C4_length_boundaries_amended defaultOptions).2.2
      (List.replicate 65 'a') (str "b.cd") (by decide) (by decide) (by decide)
      (by decide)

/-! ## Stage lemmas for `validate` -/

theorem syntaxStage_error_fields (o : Options) (email : Str)
    (r x : ValidationResult) (h : syntaxStage o email r = .error x) :
    x.input = r.input ∧ x.status = r.status ∧ x.suggestion = r.suggestion ∧
    x.gmail_normalized = r.gmail_normalized := by
  simp only [syntaxStage] at h
  split at h
  · split at h
    · simp only [Except.error.injEq] at h
      subst h
      exact ⟨rfl, rfl, rfl, rfl⟩
    · cases h
  · cases h

theorem syntaxStage_ok_fields (o : Options) (email : Str)
    (r x : ValidationResult) (h : syntaxStage o email r = .ok x) :
    x.input = r.input ∧ x.status = r.status ∧ x.suggestion = r.suggestion ∧
    x.gmail_normalized = r.gmail_normalized := by
  simp only [syntaxStage] at h
  split at h
  · split at h
    · cases h
    · simp only [Except.ok.injEq] at h
      subst h
      exact ⟨rfl, rfl, rfl, rfl⟩
  · simp only [Except.ok.injEq] at h
    subst h
    exact ⟨rfl, rfl, rfl, rfl⟩

theorem parseStage_error_fields (o : Options) (email : Str)
    (r x : ValidationResult) (h : parseStage o email r = .error x) :
    x.input = r.input ∧ x.status = r.status ∧ x.suggestion = r.suggestion ∧
    x.gmail_normalized = r.gmail_normalized := by
  simp only [parseStage] at h
  split at h
  · simp only [Except.error.injEq] at h
    subst h
    exact ⟨rfl, rfl, rfl, rfl⟩
  · cases h

theorem parseStage_ok_fields (o : Options) (email : Str)
    (r : ValidationResult) (y : ValidationResult × ParsedEmail)
    (h : parseStage o email r = .ok y) :
    y.1 = r ∧ parseEmail o email = some y.2 := by
  simp only [parseStage] at h
  split at h
  · cases h
  · rename_i p hp
    simp only [Except.ok.injEq] at h
    subst h
    exact ⟨rfl, hp⟩

theorem enrichStage_fields (env : Env) (o : Options) (email : Str)
    (p : ParsedEmail) (r : ValidationResult) :
    (enrichStage env o email p r).input = r.input ∧
    (enrichStage env o email p r).status = r.status ∧
    (enrichStage env o email p r).suggestion = r.suggestion ∧
    (enrichStage env o email p r).gmail_normalized =
      normalizeGmail o p.localPart p.domain :=
  ⟨rfl, rfl, rfl, rfl⟩

theorem typoStage_fields (o : Options) (email : Str) (r : ValidationResult) :
    (typoStage o email r).input = r.input ∧
    (typoStage o email r).status = r.status ∧
    (typoStage o email r).gmail_normalized = r.gmail_normalized := by
  simp only [typoStage]
  split
  · split
    · exact ⟨rfl, rfl, rfl⟩
    · split
      · exact ⟨rfl, rfl, rfl⟩
      · split
        · exact ⟨rfl, rfl, rfl⟩
        · exact ⟨rfl, rfl, rfl⟩
  · exact ⟨rfl, rfl, rfl⟩

theorem typoStage_suggestion (o : Options) (email : Str) (r : ValidationResult)
    (hnone : ∀ dom, (splitChar '@' email).get? 1 = some dom →
      lookupCorrection (jsToLower dom) = none) :
    (typoStage o email r).suggestion = r.suggestion := by
  simp only [typoStage]
  split
  · split
    · rfl
    · rename_i dom hdom
      split
      · rfl
      · split
        · rename_i corrected hcorr
          rw [hnone dom hdom] at hcorr
          cases hcorr
        · rfl
  · rfl

theorem disposableStage_fields (env : Env) (o : Options) (domain : Str)
    (r : ValidationResult) :
    (disposableStage env o domain r).input = r.input ∧
    (disposableStage env o domain r).status = r.status ∧
    (disposableStage env o domain r).suggestion = r.suggestion ∧
    (disposableStage env o domain r).gmail_normalized = r.gmail_normalized := by
  simp only [disposableStage]
  split
  · split
    · exact ⟨rfl, rfl, rfl, rfl⟩
    · exact ⟨rfl, rfl, rfl, rfl⟩
  · exact ⟨rfl, rfl, rfl, rfl⟩

theorem domainStage_error_fields (env : Env) (o : Options) (domain : Str)
    (r x : ValidationResult) (h : domainStage env o domain r = .error x) :
    x.input = r.input ∧ x.status = r.status ∧ x.suggestion = r.suggestion ∧
    x.gmail_normalized = r.gmail_normalized := by
  simp only [domainStage] at h
  split at h
  · split at h
    · simp only [Except.error.injEq] at h
      subst h
      exact ⟨rfl, rfl, rfl, rfl⟩
    · cases h
  · cases h

theorem domainStage_ok_fields (env : Env) (o : Options) (domain : Str)
    (r x : ValidationResult) (h : domainStage env o domain r = .ok x) :
    x.input = r.input ∧ x.status = r.status ∧ x.suggestion = r.suggestion ∧
    x.gmail_normalized = r.gmail_normalized := by
  simp only [domainStage] at h
  split at h
  · split at h
    · cases h
    · simp only [Except.ok.injEq] at h
      subst h
      exact ⟨rfl, rfl, rfl, rfl⟩
  · simp only [Except.ok.injEq] at h
    subst h
    exact ⟨rfl, rfl, rfl, rfl⟩

theorem mxStage_fields (env : Env) (o : Options) (domain : Str)
    (r : ValidationResult) :
    (mxStage env o domain r).input = r.input ∧
    (mxStage env o domain r).status = r.status ∧
    (mxStage env o domain r).suggestion = r.suggestion ∧
    (mxStage env o domain r).gmail_normalized = r.gmail_normalized := by
  simp only [mxStage]
  split
  · exact ⟨rfl, rfl, rfl, rfl⟩
  · exact ⟨rfl, rfl, rfl, rfl⟩

theorem smtpStage_fields (env : Env) (o : Options) (email domain : Str)
    (r : ValidationResult) :
    (smtpStage env o email domain r).input = r.input ∧
    (smtpStage env o email domain r).status = r.status ∧
    (smtpStage env o email domain r).suggestion = r.suggestion ∧
    (smtpStage env o email domain r).gmail_normalized = r.gmail_normalized := by
  simp only [smtpStage]
  split
  · exact ⟨rfl, rfl, rfl, rfl⟩
  · exact ⟨rfl, rfl, rfl, rfl⟩

theorem healthStage_fields (env : Env) (domain : Str) (r : ValidationResult) :
    (healthStage env domain r).input = r.input ∧
    (healthStage env domain r).status = r.status ∧
    (healthStage env domain r).suggestion = r.suggestion ∧
    (healthStage env domain r).gmail_normalized = r.gmail_normalized :=
  ⟨rfl, rfl, rfl, rfl⟩

theorem heuristicsStage_fields (o : Options) (p : ParsedEmail)
    (r : ValidationResult) :
    (heuristicsStage o p r).input = r.input ∧
    (heuristicsStage o p r).status = r.status ∧
    (heuristicsStage o p r).suggestion = r.suggestion ∧
    (heuristicsStage o p r).gmail_normalized = r.gmail_normalized := by
  simp only [heuristicsStage]
  split
  · exact ⟨rfl, rfl, rfl, rfl⟩
  · exact ⟨rfl, rfl, rfl, rfl⟩

theorem finalizeStatus_fields (o : Options) (p : ParsedEmail)
    (r : ValidationResult) :
    (finalizeStatus o p r).input = r.input ∧
    (finalizeStatus o p r).suggestion = r.suggestion ∧
    (finalizeStatus o p r).gmail_normalized = r.gmail_normalized ∧
    ((finalizeStatus o p r).status = str "valid" ∨
     (finalizeStatus o p r).status = str "risky" ∨
     (finalizeStatus o p r).status = str "invalid") := by
  simp only [finalizeStatus]
  repeat' split
  all_goals exact ⟨rfl, rfl, rfl, by
    first
    | exact Or.inl rfl
    | exact Or.inr (Or.inl rfl)
    | exact Or.inr (Or.inr rfl)⟩

/-- Every run of the pipeline either exits early with a result whose status
is still the initial `"invalid"`, or completes and returns
`finalizeStatus` of the accumulated record; in both cases the input is
echoed. -/
theorem validateGo_cases (env : Env) (o : Options) (email : Str) :
    (∃ x, validateGo env o email = .error x ∧ x.input = email ∧
       x.status = str "invalid") ∨
    (∃ p r9, validateGo env o email = .ok (finalizeStatus o p r9) ∧
       parseEmail o email = some p ∧ r9.input = email) := by
  cases h1 : syntaxStage o email (initResult email) with
  | error e1 =>
    have hgo : validateGo env o email = .error e1 := by
      unfold validateGo
      show Bind.bind (syntaxStage o email (initResult email)) _ = _
      rw [h1]
      rfl
    obtain ⟨hi, hs, _, _⟩ := syntaxStage_error_fields o email _ e1 h1
    exact Or.inl ⟨e1, hgo, hi, hs⟩
  | ok r1 =>
    obtain ⟨hi1, hs1, _, _⟩ := syntaxStage_ok_fields o email _ r1 h1
    cases h2 : parseStage o email r1 with
    | error e2 =>
      have hgo : validateGo env o email = .error e2 := by
        unfold validateGo
        show Bind.bind (syntaxStage o email (initResult email)) _ = _
        rw [h1]
        show Bind.bind (parseStage o email r1) _ = _
        rw [h2]
        rfl
      obtain ⟨hi, hs, _, _⟩ := parseStage_error_fields o email r1 e2 h2
      exact Or.inl ⟨e2, hgo, hi.trans hi1, hs.trans hs1⟩
    | ok rp =>
      obtain ⟨hrp1, hpe⟩ := parseStage_ok_fields o email r1 rp h2
      cases h3 : domainStage env o rp.2.domain
          (disposableStage env o rp.2.domain
            (typoStage o email (enrichStage env o email rp.2 rp.1))) with
      | error e3 =>
        have hgo : validateGo env o email = .error e3 := by
          unfold validateGo
          show Bind.bind (syntaxStage o email (initResult email)) _ = _
          rw [h1]
          show Bind.bind (parseStage o email r1) _ = _
          rw [h2]
          show Bind.bind (domainStage env o rp.2.domain _) _ = _
          rw [h3]
          rfl
        obtain ⟨hi, hs, _, _⟩ := domainStage_error_fields env o rp.2.domain _ e3 h3
        refine Or.inl ⟨e3, hgo, ?_, ?_⟩
        · rw [hi, (disposableStage_fields env o rp.2.domain _).1,
              (typoStage_fields o email _).1,
              (enrichStage_fields env o email rp.2 rp.1).1, hrp1, hi1]
          rfl
        · rw [hs, (disposableStage_fields env o rp.2.domain _).2.1,
              (typoStage_fields o email _).2.1,
              (enrichStage_fields env o email rp.2 rp.1).2.1, hrp1, hs1]
          rfl
      | ok r6 =>
        have hgo : validateGo env o email =
            .ok (finalizeStatus o rp.2
              (heuristicsStage o rp.2
                (healthStage env rp.2.domain
                  (smtpStage env o email rp.2.domain
                    (mxStage env o rp.2.domain r6))))) := by
          unfold validateGo
          show Bind.bind (syntaxStage o email (initResult email)) _ = _
          rw [h1]
          show Bind.bind (parseStage o email r1) _ = _
          rw [h2]
          show Bind.bind (domainStage env o rp.2.domain _) _ = _
          rw [h3]
          rfl
        obtain ⟨hi, _, _, _⟩ := domainStage_ok_fields env o rp.2.domain _ r6 h3
        refine Or.inr ⟨rp.2, _, hgo, hpe, ?_⟩
        rw [(heuristicsStage_fields o rp.2 _).1,
            (healthStage_fields env rp.2.domain _).1,
            (smtpStage_fields env o email rp.2.domain _).1,
            (mxStage_fields env o rp.2.domain _).1, hi,
            (disposableStage_fields env o rp.2.domain _).1,
            (typoStage_fields o email _).1,
            (enrichStage_fields env o email rp.2 rp.1).1, hrp1, hi1]
        rfl

/-- Claim C9 — error containment: for every input string (the empty string
included) and every environment — even one whose DNS and socket calls all
fail, failures being modelled as `Except.error` values — the engine's
`validate` returns a `ValidationResult` (it is total: no exception
propagates to the caller; stage-level failures are absorbed by the stages
and surfaced in `reason`), echoing the input and carrying one of the
engine's status values. -/
theorem C9_error_containment (env : Env) (o : Options) (email : Str) :
    (validate env o email).input = email ∧
    ((validate env o email).status = str "valid" ∨
     (validate env o email).status = str "risky" ∨
     (validate env o email).status = str "invalid") := by
  unfold validate
  rcases validateGo_cases env o email with ⟨x, hgo, hi, hs⟩ | ⟨p, r9, hgo, _, hr9⟩
  · rw [hgo]
    exact ⟨hi, Or.inr (Or.inr hs)⟩
  · rw [hgo]
    obtain ⟨hfi, _, _, hst⟩ := finalizeStatus_fields o p r9
    exact ⟨hfi.trans hr9, hst⟩

/-- The status chain only relabels: the data fields of the final record
are those of the accumulated record, and `score` is `calculateScore`. -/
theorem finalizeStatus_data (o : Options) (p : ParsedEmail)
    (r : ValidationResult) :
    (finalizeStatus o p r).syntax_valid = r.syntax_valid ∧
    (finalizeStatus o p r).domain_valid = r.domain_valid ∧
    (finalizeStatus o p r).mx_found = r.mx_found ∧
    (finalizeStatus o p r).disposable = r.disposable ∧
    (finalizeStatus o p r).domainHealth = r.domainHealth ∧
    (finalizeStatus o p r).score = calculateScore o r := by
  simp only [finalizeStatus]
  repeat' split
  all_goals exact ⟨rfl, rfl, rfl, rfl, rfl, rfl⟩

/-- Inverse reading of the status chain: only its fifth branch emits
`"valid"`, so all four earlier guards failed and the score guard held. -/
theorem finalizeStatus_valid_inv (o : Options) (p : ParsedEmail)
    (r : ValidationResult)
    (h : (finalizeStatus o p r).status = str "valid") :
    r.syntax_valid = true ∧ r.domain_valid = true ∧ r.mx_found = true ∧
    r.disposable = false ∧ r.domainHealth.blacklisted = false ∧
    calculateScore o r ≥ (if o.strictScoring then 90 else 85) := by
  unfold finalizeStatus at h
  simp only [apply_ite ValidationResult.status] at h
  by_cases hd : r.disposable = true
  · rw [if_pos hd] at h
    exact absurd h (by decide)
  · rw [if_neg hd] at h
    by_cases hb : r.domainHealth.blacklisted = true
    · rw [if_pos hb] at h
      exact absurd h (by decide)
    · rw [if_neg hb] at h
      by_cases hsd : (!r.syntax_valid || !r.domain_valid) = true
      · rw [if_pos hsd] at h
        exact absurd h (by decide)
      · rw [if_neg hsd] at h
        by_cases hmx : (!r.mx_found) = true
        · rw [if_pos hmx] at h
          exact absurd h (by decide)
        · rw [if_neg hmx] at h
          by_cases hsc : calculateScore o r ≥ (if o.strictScoring then 90 else 85)
          · simp only [Bool.or_eq_true, Bool.not_eq_true'] at hsd
            push_neg at hsd
            simp only [Bool.not_eq_true'] at hmx
            simp only [Bool.not_eq_true] at hd hb
            refine ⟨?_, ?_, ?_, hd, hb, hsc⟩
            · cases hv : r.syntax_valid with
              | true => rfl
              | false => exact absurd hv hsd.1
            · cases hv : r.domain_valid with
              | true => rfl
              | false => exact absurd hv hsd.2
            · cases hv : r.mx_found with
              | true => rfl
              | false => exact absurd hv hmx
          · rw [if_neg hsc] at h
            by_cases hr : calculateScore o r ≥ (if o.strictScoring then 70 else 65)
            · rw [if_pos hr] at h
              exact absurd h (by decide)
            · rw [if_neg hr] at h
              exact absurd h (by decide)

/-- Claim C1 — `status = "valid"` is produced only by the fifth branch of
the top-down status chain (disposable checked first), so it entails:
syntax, domain and MX all succeeded, the address is not disposable, the
domain is not blacklisted, and the score reaches the threshold (85, or 90
when strict scoring is enabled). -/
theorem C1_valid_status_requirements (env : Env) (o : Options) (email : Str)
    (h : (validate env o email).status = str "valid") :
    (validate env o email).syntax_valid = true ∧
    (validate env o email).domain_valid = true ∧
    (validate env o email).mx_found = true ∧
    (validate env o email).disposable = false ∧
    (validate env o email).domainHealth.blacklisted = false ∧
    (validate env o email).score ≥ (if o.strictScoring then 90 else 85) := by
  unfold validate at h ⊢
  rcases validateGo_cases env o email with ⟨x, hgo, _, hs⟩ | ⟨p, r9, hgo, _, _⟩
  · rw [hgo] at h
    rw [hs] at h
    exact absurd h (by decide)
  · rw [hgo] at h ⊢
    obtain ⟨h1, h2, h3, h4, h5, h6⟩ := finalizeStatus_valid_inv o p r9 h
    obtain ⟨d1, d2, d3, d4, d5, d6⟩ := finalizeStatus_data o p r9
    refine ⟨?_, ?_, ?_, ?_, ?_, ?_⟩
    · rw [d1, h1]
    · rw [d2, h2]
    · rw [d3, h3]
    · rw [d4, h4]
    · rw [d5, h5]
    · rw [d6]
      exact h6

/-- Witness for C1: a healthy environment and `john@gmail.com` yield
`status = "valid"`, and the theorem's consequences hold there. -/
theorem C1_valid_status_requirements_witness :
    (validate okEnv defaultOptions (str "john@gmail.com")).status = str "valid" ∧
    ((validate okEnv defaultOptions (str "john@gmail.com")).syntax_valid = true ∧
     (validate okEnv defaultOptions (str "john@gmail.com")).domain_valid = true ∧
     (validate okEnv defaultOptions (str "john@gmail.com")).mx_found = true ∧
     (validate okEnv defaultOptions (str "john@gmail.com")).disposable = false ∧
     (validate okEnv defaultOptions (str "john@gmail.com")).domainHealth.blacklisted
       = false ∧
     (validate okEnv defaultOptions (str "john@gmail.com")).score ≥
       (if defaultOptions.strictScoring then 90 else 85)) :=
  ⟨by decide,
   C1_valid_status_requirements okEnv defaultOptions (str "john@gmail.com")
     (by decide)⟩

/-- Claim C3 — for every address the RFC parser rejects, `validate` under
default options returns early from the syntax stage: `syntax_valid =
false`, status stays in {invalid, error} (it is exactly `"invalid"`),
`checks_performed = ["syntax"]`, and every later stage field keeps its
initial value (`domain_valid`, `mx_found`, `disposable`, `typo_detected`
false; `smtp_deliverable` null). -/
theorem C3_parser_reject_early_return (env : Env) (email : Str)
    (h : (validateRFC defaultOptions email).valid = false) :
    (validate env defaultOptions email).syntax_valid = false ∧
    ((validate env defaultOptions email).status = str "invalid" ∨
     (validate env defaultOptions email).status = str "error") ∧
    (validate env defaultOptions email).checks_performed = [str "syntax"] ∧
    (validate env defaultOptions email).domain_valid = false ∧
    (validate env defaultOptions email).mx_found = false ∧
    (validate env defaultOptions email).disposable = false ∧
    (validate env defaultOptions email).typo_detected = false ∧
    (validate env defaultOptions email).smtp_deliverable = none := by
  have hsyn : syntaxStage defaultOptions email (initResult email) = .error
      { input := email, syntax_valid := false,
        reason := (validateRFC defaultOptions email).reason,
        checks_performed := [str "syntax"] } := by
    simp only [syntaxStage, h]
    rfl
  have hgo : validateGo env defaultOptions email = .error
      { input := email, syntax_valid := false,
        reason := (validateRFC defaultOptions email).reason,
        checks_performed := [str "syntax"] } := by
    unfold validateGo
    show Bind.bind (syntaxStage defaultOptions email (initResult email)) _ = _
    rw [hsyn]
    rfl
  have hval : validate env defaultOptions email =
      { input := email, syntax_valid := false,
        reason := (validateRFC defaultOptions email).reason,
        checks_performed := [str "syntax"] } := by
    unfold validate
    rw [hgo]
  rw [hval]
  exact ⟨rfl, Or.inl rfl, rfl, rfl, rfl, rfl, rfl, rfl⟩

/-- Witness for C3 at `"invalid-email"` (no `@`), with the all-failing
environment. -/
theorem C3_parser_reject_early_return_witness :
    (validateRFC defaultOptions (str "invalid-email")).valid = false ∧
    (validate failEnv defaultOptions (str "invalid-email")).checks_performed
      = [str "syntax"] :=
  ⟨by decide,
   (C3_parser_reject_early_return failEnv (str "invalid-email")
     (by decide)).2.2.1⟩

/-! ## Claim C8 — Gmail normalization -/

/-- When the parser accepts the input, `gmail_normalized` is set right
after parsing (from the parsed local part and lowercased domain) and no
later stage or early return modifies it. -/
theorem validate_gmail_field (env : Env) (o : Options) (email : Str)
    (p : ParsedEmail)
    (hsv : o.checkSyntax = true → (validateRFC o email).valid = true)
    (hp : parseEmail o email = some p) :
    (validate env o email).gmail_normalized =
      normalizeGmail o p.localPart p.domain := by
  obtain ⟨r1, hsyn⟩ : ∃ r1, syntaxStage o email (initResult email) = .ok r1 := by
    simp only [syntaxStage]
    by_cases hc : o.checkSyntax = true
    · simp only [hc, if_true, hsv hc, Bool.not_true, Bool.false_eq_true,
        if_false]
      exact ⟨_, rfl⟩
    · rw [Bool.not_eq_true] at hc
      simp only [hc, Bool.false_eq_true, if_false]
      exact ⟨_, rfl⟩
  have hps : parseStage o email r1 = .ok (r1, p) := by
    unfold parseStage
    rw [hp]
  cases h3 : domainStage env o p.domain
      (disposableStage env o p.domain
        (typoStage o email (enrichStage env o email p r1))) with
  | error e3 =>
    have hgo : validateGo env o email = .error e3 := by
      unfold validateGo
      show Bind.bind (syntaxStage o email (initResult email)) _ = _
      rw [hsyn]
      show Bind.bind (parseStage o email r1) _ = _
      rw [hps]
      show Bind.bind (domainStage env o p.domain
        (disposableStage env o p.domain
          (typoStage o email (enrichStage env o email p r1)))) _ = _
      rw [h3]
      rfl
    unfold validate
    rw [hgo]
    obtain ⟨_, _, _, hg⟩ := domainStage_error_fields env o p.domain _ e3 h3
    rw [hg, (disposableStage_fields env o p.domain _).2.2.2,
        (typoStage_fields o email _).2.2,
        (enrichStage_fields env o email p r1).2.2.2]
  | ok r6 =>
    have hgo : validateGo env o email =
        .ok (finalizeStatus o p
          (heuristicsStage o p
            (healthStage env p.domain
              (smtpStage env o email p.domain
                (mxStage env o p.domain r6))))) := by
      unfold validateGo
      show Bind.bind (syntaxStage o email (initResult email)) _ = _
      rw [hsyn]
      show Bind.bind (parseStage o email r1) _ = _
      rw [hps]
      show Bind.bind (domainStage env o p.domain
        (disposableStage env o p.domain
          (typoStage o email (enrichStage env o email p r1)))) _ = _
      rw [h3]
      rfl
    unfold validate
    rw [hgo]
    obtain ⟨_, _, _, hg⟩ := domainStage_ok_fields env o p.domain _ r6 h3
    rw [(finalizeStatus_fields o p _).2.2.1,
        (heuristicsStage_fields o p _).2.2.2,
        (healthStage_fields env p.domain _).2.2.2,
        (smtpStage_fields env o email p.domain _).2.2.2,
        (mxStage_fields env o p.domain _).2.2.2, hg,
        (disposableStage_fields env o p.domain _).2.2.2,
        (typoStage_fields o email _).2.2,
        (enrichStage_fields env o email p r1).2.2.2]

/-- Claim C8, counterexample — `a.b@gmail.com` and `a..b@gmail.com` have
local parts that agree after removing dots, truncating at `+` and
lowercasing, yet their validation results' `gmail_normalized` fields
differ: the parser rejects consecutive dots, so the second result returns
early with the field still null. -/
theorem C8_counterexample :
    gmailCanon (str "a.b") = gmailCanon (str "a..b") ∧
    (validate failEnv defaultOptions (str "a.b@gmail.com")).gmail_normalized =
      some (str "ab@gmail.com") ∧
    (validate failEnv defaultOptions (str "a..b@gmail.com")).gmail_normalized =
      none := by decide

/-- Claim C8, amended — for two `@gmail.com` addresses **that the parser
accepts** and whose local parts differ only in dots and/or a `+tag`
(i.e. agree after removing dots, truncating at the first `+` and
lowercasing), the `gmail_normalized` fields of their validation results
are equal — under any environments and any options. -/
theorem C8_gmail_normalization_amended (env1 env2 : Env) (o : Options)
    (l1 l2 : Str) (ha1 : '@' ∉ l1) (ha2 : '@' ∉ l2)
    (hc : gmailCanon l1 = gmailCanon l2)
    (hv1 : (validateRFC o (l1 ++ str "@gmail.com")).valid = true)
    (hv2 : (validateRFC o (l2 ++ str "@gmail.com")).valid = true) :
    (validate env1 o (l1 ++ str "@gmail.com")).gmail_normalized =
      (validate env2 o (l2 ++ str "@gmail.com")).gmail_normalized := by
  have hsplit : ∀ l : Str, '@' ∉ l →
      splitChar '@' (l ++ str "@gmail.com") = [l, str "gmail.com"] := by
    intro l hl
    have he : l ++ str "@gmail.com" = l ++ '@' :: str "gmail.com" := rfl
    rw [he, splitChar_append_cons '@' l _ hl,
        splitChar_of_notMem '@' _ (by decide)]
  have hparse : ∀ l : Str, '@' ∉ l →
      (validateRFC o (l ++ str "@gmail.com")).valid = true →
      ∃ pe, parseEmail o (l ++ str "@gmail.com") = some pe ∧
        pe.localPart = l ∧ pe.domain = str "gmail.com" := by
    intro l hl hv
    unfold parseEmail
    rw [hv, hsplit l hl]
    simp only [Bool.not_true, Bool.false_eq_true, if_false]
    exact ⟨_, rfl, rfl,
      (by decide : jsToLower (str "gmail.com") = str "gmail.com")⟩
  have hng : ∀ l : Str, normalizeGmail o l (str "gmail.com") =
      if o.enableGmailNormalization then
        some (gmailCanon l ++ str "@gmail.com")
      else none := by
    intro l
    unfold normalizeGmail
    have hmem : ([str "gmail.com", str "googlemail.com"].contains
        (jsToLower (str "gmail.com"))) = true := by decide
    rw [hmem]
    cases o.enableGmailNormalization <;> rfl
  obtain ⟨p1, hp1, hl1, hd1⟩ := hparse l1 ha1 hv1
  obtain ⟨p2, hp2, hl2, hd2⟩ := hparse l2 ha2 hv2
  rw [validate_gmail_field env1 o _ p1 (fun _ => hv1) hp1,
      validate_gmail_field env2 o _ p2 (fun _ => hv2) hp2,
      hl1, hd1, hl2, hd2, hng l1, hng l2, hc]

/-- Witness for the amended C8: `a.b@gmail.com` and `ab@gmail.com`. -/
theorem C8_gmail_normalization_amended_witness :
    (validate failEnv defaultOptions
        (str "a.b" ++ str "@gmail.com")).gmail_normalized =
      (validate failEnv defaultOptions
        (str "ab" ++ str "@gmail.com")).gmail_normalized :=
  C8_gmail_normalization_amended failEnv failEnv defaultOptions
    (str "a.b") (str "ab") (by decide) (by decide) (by decide) (by decide)
    (by decide)

/-- C5: in the WAIT_RCPT state (`step = 3`) of the SMTP prober, a reply
starting with 250 makes the handler send a second `RCPT TO` for the random
probe address and move to step 4, where every further reply resolves with
`deliverable = yes` and `isCatchAll` true iff that reply starts with 250; a
reply starting with 550 resolves with `deliverable = no`; any other reply
resolves with `deliverable = unknown` and the trimmed server response
recorded in the reason. -/
theorem C5_smtp_wait_rcpt (o : Options) (nowMs : Nat) (email domain chunk : Str)
    (st : SMTPConn) (h3 : st.step = 3) (hca : st.isCatchAll = false) :
    ((str "250").isPrefixOf (jsTrim chunk) = true →
      ∃ st2, smtpOnData o nowMs email domain st chunk = .inl st2 ∧
        st2.step = 4 ∧
        st2.sent = st.sent ++
          [str "RCPT TO:<" ++ randomProbe nowMs domain ++ str ">\r\n"] ∧
        ∀ chunk2, ∃ out,
          smtpOnData o nowMs email domain st2 chunk2 = .inr out ∧
          out.deliverable = some true ∧
          out.isCatchAll = (str "250").isPrefixOf (jsTrim chunk2)) ∧
    ((str "250").isPrefixOf (jsTrim chunk) = false →
      (str "550").isPrefixOf (jsTrim chunk) = true →
      ∃ out, smtpOnData o nowMs email domain st chunk = .inr out ∧
        out.deliverable = some false) ∧
    ((str "250").isPrefixOf (jsTrim chunk) = false →
      (str "550").isPrefixOf (jsTrim chunk) = false →
      ∃ out, smtpOnData o nowMs email domain st chunk = .inr out ∧
        out.deliverable = none ∧
        out.reason = str "Uncertain - server response: " ++ jsTrim chunk) := by
  refine ⟨?_, ?_, ?_⟩
  · intro h250
    refine ⟨{ step := 4, serverBanner := st.serverBanner,
              serverResponse := some (jsTrim chunk),
              tlsSupported := st.tlsSupported, isCatchAll := st.isCatchAll,
              sent := st.sent ++
                [str "RCPT TO:<" ++ randomProbe nowMs domain ++ str ">\r\n"] },
            ?_, rfl, rfl, ?_⟩
    · simp [smtpOnData, h3, h250]
    · intro chunk2
      refine ⟨{ deliverable := some true,
                reason := str "SMTP server accepts email",
                serverBanner := st.serverBanner,
                serverResponse := some (jsTrim chunk),
                tlsSupported := st.tlsSupported,
                isCatchAll := (str "250").isPrefixOf (jsTrim chunk2) },
              ?_, rfl, rfl⟩
      cases h : (str "250").isPrefixOf (jsTrim chunk2) <;>
        simp [smtpOnData, h, hca]
  · intro h250 h550
    refine ⟨{ deliverable := some false,
              reason := str "Email address rejected by server",
              serverBanner := st.serverBanner,
              serverResponse := some (jsTrim chunk),
              tlsSupported := st.tlsSupported, isCatchAll := st.isCatchAll },
            ?_, rfl⟩
    simp [smtpOnData, h3, h250, h550]
  · intro h250 h550
    refine ⟨{ deliverable := none,
              reason := str "Uncertain - server response: " ++ jsTrim chunk,
              serverBanner := st.serverBanner,
              serverResponse := some (jsTrim chunk),
              tlsSupported := st.tlsSupported, isCatchAll := st.isCatchAll },
            ?_, rfl, rfl⟩
    simp [smtpOnData, h3, h250, h550]

/-- Witness for C5: a fresh step-3 connection fed "250 ok", then "550 no". -/
theorem C5_smtp_wait_rcpt_witness :
    ∃ st2, smtpOnData defaultOptions 0 (str "a@b.co") (str "b.co")
        { step := 3 } (str "250 ok") = .inl st2 ∧
      st2.step = 4 ∧
      st2.sent = ([] : List Str) ++
        [str "RCPT TO:<" ++ randomProbe 0 (str "b.co") ++ str ">\r\n"] ∧
      ∀ chunk2, ∃ out,
        smtpOnData defaultOptions 0 (str "a@b.co") (str "b.co") st2 chunk2 =
          .inr out ∧
        out.deliverable = some true ∧
        out.isCatchAll = (str "250").isPrefixOf (jsTrim chunk2) :=
  (C5_smtp_wait_rcpt defaultOptions 0 (str "a@b.co") (str "b.co")
    (str "250 ok") { step := 3 } rfl rfl).1 (by decide)

/-- `Math.round` bridge: the integer floor-division form used in the
embedding of `calculateScore` computes exactly `⌊x + 1/2⌋` of the rational
score `b + (rep − 50)/5`. -/
theorem round_bridge (b rep : ℤ) :
    Int.fdiv (10 * b + 2 * (rep - 50) + 5) 10 =
    ⌊((b : ℚ) + ((rep : ℚ) - 50) / 5) + 1 / 2⌋ := by
  have harg : ((b : ℚ) + ((rep : ℚ) - 50) / 5) + 1 / 2 =
      ((10 * b + 2 * (rep - 50) + 5 : ℤ) : ℚ) / ((10 : ℕ) : ℚ) := by
    push_cast
    ring
  rw [harg, Rat.floor_intCast_div_natCast, Int.fdiv_eq_ediv _ (by norm_num)]
  rfl

/-- C2: the claimed §4.7 formula disagrees with `calculateScore` on three
records: one exercising the advanced-heuristics bonus the formula omits,
one whose suggestion equals the input (code skips the typo penalty, the
formula applies it), and one with reputation 52 (the formula's sum is the
non-integer 25.4, the code rounds). -/
theorem C2_counterexample :
    (calculateScore defaultOptions c2rHeur : ℚ) ≠
        specScoreC2 c2rHeur defaultOptions.strictScoring ∧
    (calculateScore defaultOptions c2rTypo : ℚ) ≠
        specScoreC2 c2rTypo defaultOptions.strictScoring ∧
    (calculateScore defaultOptions c2rFrac : ℚ) ≠
        specScoreC2 c2rFrac defaultOptions.strictScoring := by
  have h1 : calculateScore defaultOptions c2rHeur = 100 := by decide
  have h2 : calculateScore defaultOptions c2rTypo = 30 := by decide
  have h3 : calculateScore defaultOptions c2rFrac = 30 := by decide
  refine ⟨?_, ?_, ?_⟩
  · rw [h1]
    norm_num [specScoreC2, c2rHeur, defaultOptions]
  · rw [h2]
    norm_num [specScoreC2, c2rTypo, defaultOptions]
  · rw [h3]
    norm_num [specScoreC2, c2rFrac, defaultOptions]

/-- C2 (amended): `calculateScore` equals exactly the §4.7 weighted sum
extended with the advanced-heuristics bonus (+10 above 70, +5 above 50),
with the typo penalty applied only when a non-empty suggestion differs
from the input, and with the sum rounded half-up (`Math.round`) before
clamping to `[0, 100]` — for every result record and every options. -/
theorem C2_score_formula_amended (o : Options) (r : ValidationResult) :
    calculateScore o r = specScoreC2Amended r o.strictScoring := by
  have hsum : specScoreC2AmendedSum r o.strictScoring =
      (((if r.syntax_valid then 25 else 0) +
          (if r.domain_valid then 20 else 0) +
          (if r.mx_found then 25 else 0) +
          (match r.smtp_deliverable with
           | some true => 20
           | none => 5
           | some false => 0) +
          ((if r.domainHealth.spf then 5 else 0) +
           (if r.domainHealth.dmarc then 7 else 0) +
           (if r.domainHealth.dkim then 3 else 0)) +
          (if r.advanced_heuristics_score > 70 then 10
           else if r.advanced_heuristics_score > 50 then 5 else 0) -
          (if r.disposable then (if o.strictScoring then 50 else 40) else 0) -
          (if r.domainHealth.blacklisted then (if o.strictScoring then 60 else 50) else 0) -
          (if r.is_role_based then (if o.strictScoring then 25 else 15) else 0) -
          (if r.is_free_provider then (if o.strictScoring then 10 else 5) else 0) -
          (if typoPenaltyApplies r then (if o.strictScoring then 25 else 15) else 0) +
          (if r.tls_supported then 5 else 0) +
          (if r.is_business_email then 10 else 0) : ℤ) : ℚ) +
        ((r.domainHealth.reputation : ℚ) - 50) / 5 := by
    unfold specScoreC2AmendedSum typoPenaltyApplies
    cases hsd : r.smtp_deliverable with
    | none =>
      push_cast [apply_ite (fun z : ℤ => (z : ℚ))]
      ring
    | some b =>
      cases b <;>
        · push_cast [apply_ite (fun z : ℤ => (z : ℚ))]
          ring
  simp only [calculateScore, specScoreC2Amended]
  rw [hsum, round_bridge]

/-- `containsSub` detects exactly the substrings. -/
theorem containsSub_iff (pat : Str) :
    ∀ s : Str, containsSub pat s = true ↔ ∃ a b, s = a ++ pat ++ b := by
  intro s
  induction s with
  | nil =>
    simp only [containsSub]
    constructor
    · intro h
      have hp : pat = [] := List.isEmpty_iff.mp h
      exact ⟨[], [], by rw [hp]; rfl⟩
    · rintro ⟨a, b, hab⟩
      rcases List.append_eq_nil.mp hab.symm with ⟨h1, hb⟩
      rcases List.append_eq_nil.mp h1 with ⟨ha, hp⟩
      subst hp
      rfl
  | cons c rest ih =>
    simp only [containsSub, Bool.or_eq_true]
    constructor
    · rintro (hpre | hsub)
      · obtain ⟨t, ht⟩ := List.isPrefixOf_iff_prefix.mp hpre
        exact ⟨[], t, by rw [← ht]; rfl⟩
      · obtain ⟨a, b, hab⟩ := ih.mp hsub
        exact ⟨c :: a, b, by rw [hab]; rfl⟩
    · rintro ⟨a, b, hab⟩
      cases a with
      | nil =>
        exact Or.inl (List.isPrefixOf_iff_prefix.mpr ⟨b, by rw [hab]; rfl⟩)
      | cons a0 as =>
        refine Or.inr (ih.mpr ⟨as, b, ?_⟩)
        have hab2 : c :: rest = a0 :: (as ++ pat ++ b) := hab
        exact (List.cons.injEq _ _ _ _ ▸ hab2).2

/-- The first piece of a split is the longest separator-free prefix. -/
theorem splitChar_head (sep : Char) (s : Str) :
    ∃ ps, splitChar sep s =
      s.takeWhile (fun c => decide (c ≠ sep)) :: ps := by
  induction s with
  | nil => exact ⟨[], rfl⟩
  | cons c rest ih =>
    by_cases hc : c = sep
    · refine ⟨splitChar sep rest, ?_⟩
      simp [splitChar, List.takeWhile_cons, hc]
    · obtain ⟨ps, hps⟩ := ih
      refine ⟨ps, ?_⟩
      simp only [splitChar, if_neg hc, hps]
      simp [List.takeWhile_cons, hc]

/-- `takeWhile` keeps a list all of whose elements satisfy the predicate. -/
theorem takeWhile_all (p : Char → Bool) :
    ∀ a : Str, (∀ x ∈ a, p x = true) → a.takeWhile p = a := by
  intro a
  induction a with
  | nil => intro _; rfl
  | cons c rest ih =>
    intro h
    rw [List.takeWhile_cons, if_pos (h c (List.mem_cons_self c rest)),
        ih (fun x hx => h x (List.mem_cons_of_mem c hx))]

/-- `takeWhile` over a satisfied prefix followed by a failing element. -/
theorem takeWhile_append_stop (p : Char → Bool) (c : Char) (b : Str)
    (hc : p c = false) :
    ∀ a : Str, (∀ x ∈ a, p x = true) →
      (a ++ c :: b).takeWhile p = a := by
  intro a
  induction a with
  | nil => intro _; simp [List.takeWhile_cons, hc]
  | cons x xs ih =>
    intro h
    show ((x :: (xs ++ c :: b)).takeWhile p) = x :: xs
    rw [List.takeWhile_cons, if_pos (h x (List.mem_cons_self x xs)),
        ih (fun y hy => h y (List.mem_cons_of_mem x hy))]

/-- Dot-collapsing distributes over a non-dot boundary character. -/
theorem collapseDotsAux_append (c : Char) (hc : c ≠ '.') (t : Str) :
    ∀ (l : Str) (b : Bool),
      collapseDotsAux b (l ++ c :: t) =
        collapseDotsAux b l ++ c :: collapseDotsAux false t := by
  intro l
  induction l with
  | nil => intro b; simp [collapseDotsAux, hc]
  | cons x xs ih =>
    intro b
    by_cases hx : x = '.'
    · subst hx
      cases b with
      | true => simpa [collapseDotsAux] using ih true
      | false => simp [collapseDotsAux, ih true]
    · simp [collapseDotsAux, hx, ih false]

/-- Dot-collapsing introduces no new characters. -/
theorem mem_collapseDotsAux (x : Char) :
    ∀ (l : Str) (b : Bool), x ∈ collapseDotsAux b l → x ∈ l := by
  intro l
  induction l with
  | nil =>
    intro b h
    simp [collapseDotsAux] at h
  | cons c rest ih =>
    intro b h
    by_cases hc : c = '.'
    · subst hc
      cases b with
      | true =>
        simp only [collapseDotsAux, if_pos rfl, if_pos trivial] at h
        exact List.mem_cons_of_mem _ (ih true h)
      | false =>
        simp only [collapseDotsAux, if_pos rfl] at h
        rcases List.mem_cons.mp h with h1 | h2
        · exact h1 ▸ List.mem_cons_self _ _
        · exact List.mem_cons_of_mem _ (ih true h2)
    · simp only [collapseDotsAux, if_neg hc] at h
      rcases List.mem_cons.mp h with h1 | h2
      · exact h1 ▸ List.mem_cons_self _ _
      · exact List.mem_cons_of_mem _ (ih false h2)

/-- On a string without consecutive dots, dot-collapsing is the identity
(the in-run variant needs the head not to be a dot). -/
theorem collapseDotsAux_id :
    ∀ s : Str, containsSub ['.', '.'] s = false →
      collapseDotsAux false s = s ∧
        (s.head? ≠ some ('.') → collapseDotsAux true s = s) := by
  intro s
  induction s with
  | nil => intro _; exact ⟨rfl, fun _ => rfl⟩
  | cons c rest ih =>
    intro h
    simp only [containsSub, Bool.or_eq_false_iff] at h
    obtain ⟨hpre, hrest⟩ := h
    obtain ⟨ih1, ih2⟩ := ih hrest
    by_cases hc : c = '.'
    · subst hc
      have hhead : rest.head? ≠ some ('.') := by
        intro hh
        cases rest with
        | nil => cases hh
        | cons d rest2 =>
          have hd : d = '.' := by simpa using hh
          subst hd
          simp [List.isPrefixOf] at hpre
      refine ⟨?_, ?_⟩
      · show collapseDotsAux false ('.' :: rest) = '.' :: rest
        simp [collapseDotsAux, ih2 hhead]
      · intro hne
        exact absurd rfl hne
    · refine ⟨?_, fun _ => ?_⟩
      · simp [collapseDotsAux, hc, ih1]
      · simp [collapseDotsAux, hc, ih1]

/-- Structural facts about any string whose lowercasing is a popular
domain: no consecutive dots, no whitespace, a dot present, and all three
probes of `checkDomainTypos` miss. -/
theorem popular_lower_facts (d0 : Str)
    (hpop : popularDomains.contains (jsToLower d0) = true) :
    containsSub ['.', '.'] d0 = false ∧
    (∀ x ∈ d0, jsIsWs x = false) ∧
    '.' ∈ d0 ∧
    lookupCorrection (jsToLower d0) = none ∧
    domainCorrections.find?
      (fun kv => ['.'].isPrefixOf kv.1 && kv.1.isSuffixOf (jsToLower d0)) =
        none ∧
    findSimilarDomain (jsToLower d0) = none := by
  have hmem : jsToLower d0 ∈ popularDomains := by
    simpa [List.contains] using hpop
  have hdotchar : jsToLowerChar ('.') = '.' := by decide
  refine ⟨?_, ?_, ?_, ?_, ?_, ?_⟩
  · cases hval : containsSub ['.', '.'] d0 with
    | false => rfl
    | true =>
      obtain ⟨a, b, hab⟩ := (containsSub_iff _ d0).mp hval
      have hlow : jsToLower d0 = jsToLower a ++ ['.', '.'] ++ jsToLower b := by
        rw [hab]
        simp [jsToLower, hdotchar]
      have hc : containsSub ['.', '.'] (jsToLower d0) = true :=
        (containsSub_iff _ _).mpr ⟨jsToLower a, jsToLower b, hlow⟩
      have hall : ∀ q ∈ popularDomains, containsSub ['.', '.'] q = false := by
        decide
      rw [hall _ hmem] at hc
      cases hc
  · intro x hx
    cases hval : jsIsWs x with
    | false => rfl
    | true =>
      have hx2 : jsToLowerChar x ∈ jsToLower d0 := List.mem_map_of_mem _ hx
      have hws2 : jsIsWs (jsToLowerChar x) = true := by
        rw [jsIsWs_lower]
        exact hval
      have hall : ∀ q ∈ popularDomains, ∀ y ∈ q, jsIsWs y = false := by decide
      rw [hall _ hmem _ hx2] at hws2
      cases hws2
  · have hdotlow : '.' ∈ jsToLower d0 :=
      (by decide : ∀ q ∈ popularDomains, '.' ∈ q) _ hmem
    obtain ⟨x, hx, hfx⟩ := List.mem_map.mp hdotlow
    have hx46 : x = '.' :=
      (jsToLowerChar_eq_iff x ('.') (by decide) (by decide)).mp hfx
    exact hx46 ▸ hx
  · exact (by decide : ∀ q ∈ popularDomains, lookupCorrection q = none) _ hmem
  · exact (by decide : ∀ q ∈ popularDomains,
      domainCorrections.find?
        (fun kv => ['.'].isPrefixOf kv.1 && kv.1.isSuffixOf q) = none) _ hmem
  · simp only [findSimilarDomain, jsToLower_idem]
    rw [if_pos hpop]

/-- `checkDomainTypos` never fires on a (case-insensitively) popular
domain. -/
theorem checkDomainTypos_popular (d0 : Str)
    (hpop : popularDomains.contains (jsToLower d0) = true) :
    checkDomainTypos d0 = none := by
  obtain ⟨-, -, -, hlook, htld, hsim⟩ := popular_lower_facts d0 hpop
  simp only [checkDomainTypos]
  rw [hlook, htld, hsim]

/-- C7: typo non-reflexivity — for every email whose domain part is
case-insensitively in the popular-domain whitelist, every suggestion
produced by `checkAndSuggest` keeps exactly the input domain, and the
coordinator's typo stage leaves the suggestion untouched (in particular it
never produces one with a different domain). -/
theorem C7_popular_domain_not_corrected (o : Options) (email d0 : Str)
    (r : ValidationResult)
    (hd : (splitChar '@' email).get? 1 = some d0)
    (hpop : popularDomains.contains (jsToLower d0) = true) :
    (∀ s, (checkAndSuggest email).suggestion = some s →
      (splitChar '@' s).get? 1 = some d0) ∧
    (typoStage o email r).suggestion = r.suggestion := by
  obtain ⟨hnoDD, hnoWs, hdot, hlook, -, -⟩ := popular_lower_facts d0 hpop
  refine ⟨?_, typoStage_suggestion o email r (fun dom hdom => ?_)⟩
  case refine_2 =>
    rw [hd] at hdom
    injection hdom with hdd
    exact hdd ▸ hlook
  have hmem : '@' ∈ email := by
    by_contra hnot
    rw [splitChar_of_notMem '@' email hnot] at hd
    simp [List.get?] at hd
  obtain ⟨l, t, hemail, hlmem, hsplit⟩ := splitChar_decomp '@' email hmem
  obtain ⟨ps, hhead⟩ := splitChar_head '@' t
  have hd0 : t.takeWhile (fun c => decide (c ≠ '@')) = d0 := by
    rw [hsplit, hhead] at hd
    simpa [List.get?] using hd
  have hd0at : '@' ∉ d0 := by
    intro hx
    rw [← hd0] at hx
    have := List.mem_takeWhile_imp hx
    simp at this
  have hd0all : ∀ x ∈ d0, (fun c => decide (c ≠ '@')) x = true := by
    intro x hx
    simp only [decide_eq_true_eq]
    intro hxx
    exact hd0at (hxx ▸ hx)
  have ht : t = d0 ++ t.dropWhile (fun c => decide (c ≠ '@')) := by
    conv_lhs => rw [← List.takeWhile_append_dropWhile (fun c => decide (c ≠ '@')) t]
    rw [hd0]
  have hcollapse : (collapseDotsAux false t).takeWhile
      (fun c => decide (c ≠ '@')) = d0 := by
    rcases hcase : t.dropWhile (fun c => decide (c ≠ '@')) with _ | ⟨c, t2⟩
    · have ht0 : t = d0 := by
        rw [ht, hcase, List.append_nil]
      rw [ht0, (collapseDotsAux_id d0 hnoDD).1]
      exact takeWhile_all _ d0 hd0all
    · have hc : c = '@' := by
        simpa using dropWhile_head_false _ t hcase
      subst hc
      have ht2 : t = d0 ++ '@' :: t2 := by
        rw [ht, hcase]
      rw [ht2, collapseDotsAux_append '@' (by decide) t2 d0 false,
          (collapseDotsAux_id d0 hnoDD).1]
      exact takeWhile_append_stop _ '@' _ (by simp) d0 hd0all
  have hfilt : List.filter (fun c => !jsIsWs c) d0 = d0 :=
    List.filter_eq_self.mpr (fun x hx => by simp [hnoWs x hx])
  have hremove : (List.filter (fun c => !jsIsWs c) t).takeWhile
      (fun c => decide (c ≠ '@')) = d0 := by
    rcases hcase : t.dropWhile (fun c => decide (c ≠ '@')) with _ | ⟨c, t2⟩
    · have ht0 : t = d0 := by
        rw [ht, hcase, List.append_nil]
      rw [ht0, hfilt]
      exact takeWhile_all _ d0 hd0all
    · have hc : c = '@' := by
        simpa using dropWhile_head_false _ t hcase
      subst hc
      have ht2 : t = d0 ++ '@' :: t2 := by
        rw [ht, hcase]
      have hfcons : List.filter (fun c => !jsIsWs c) ('@' :: t2) =
          '@' :: List.filter (fun c => !jsIsWs c) t2 := by
        rw [List.filter_cons_of_pos]
        decide
      rw [ht2, List.filter_append, hfilt, hfcons]
      exact takeWhile_append_stop _ '@' _ (by simp) d0 hd0all
  have hlat : '@' ∉ collapseDotsAux false l :=
    fun hx => hlmem (mem_collapseDotsAux '@' l false hx)
  have hlat2 : '@' ∉ List.filter (fun c => !jsIsWs c) l :=
    fun hx => hlmem (List.mem_filter.mp hx).1
  have F1 : (splitChar '@' (collapseDots email)).get? 1 = some d0 := by
    rw [hemail]
    show (splitChar '@' (collapseDotsAux false (l ++ '@' :: t))).get? 1 =
      some d0
    rw [collapseDotsAux_append '@' (by decide) t l false,
        splitChar_append_cons '@' _ _ hlat]
    obtain ⟨ps2, hh2⟩ := splitChar_head '@' (collapseDotsAux false t)
    rw [hh2]
    show some (List.takeWhile (fun c => decide (c ≠ '@'))
      (collapseDotsAux false t)) = some d0
    rw [hcollapse]
  have F2 : (splitChar '@' (removeWs email)).get? 1 = some d0 := by
    rw [hemail]
    show (splitChar '@'
        (List.filter (fun c => !jsIsWs c) (l ++ '@' :: t))).get? 1 = some d0
    have hfcons : List.filter (fun c => !jsIsWs c) ('@' :: t) =
        '@' :: List.filter (fun c => !jsIsWs c) t := by
      rw [List.filter_cons_of_pos]
      decide
    rw [List.filter_append, hfcons, splitChar_append_cons '@' _ _ hlat2]
    obtain ⟨ps2, hh2⟩ := splitChar_head '@' (List.filter (fun c => !jsIsWs c) t)
    rw [hh2]
    show some (List.takeWhile (fun c => decide (c ≠ '@'))
      (List.filter (fun c => !jsIsWs c) t)) = some d0
    rw [hremove]
  have F3 : (splitChar '@' (collapseDotsAux false l ++ '@' :: d0)).get? 1 =
      some d0 := by
    rw [splitChar_append_cons '@' _ _ hlat, splitChar_of_notMem '@' d0 hd0at]
    simp [List.get?]
  have hct : checkDomainTypos d0 = none := checkDomainTypos_popular d0 hpop
  have hcont : email.contains '@' = true := by
    rw [hemail]
    simp [List.contains]
  have hdcont : d0.contains '.' = true := by
    simp [List.contains]
    exact hdot
  have hd0ne : d0.isEmpty = false := by
    cases d0 with
    | nil => cases hdot
    | cons _ _ => rfl
  have hparts : splitChar '@' email = l :: d0 :: ps := by
    rw [hsplit, hhead, hd0]
  intro s hs
  cases hle : l.isEmpty with
  | true =>
    simp [checkAndSuggest, hcont, hparts, hle, hmem] at hs
  | false =>
    simp only [checkAndSuggest, hcont, hparts, Bool.not_true,
      Bool.false_eq_true, if_false, List.headD_cons, List.getD_cons_succ,
      List.getD_cons_zero, hle, hd0ne, Bool.or_self, hct, hdcont] at hs
    by_cases hdd : containsSub ['.', '.'] email = true
    · by_cases hsp : (' ') ∈ email
      · simp [hdd, hsp] at hs
        subst hs
        exact F2
      · simp [hdd, hsp] at hs
        subst hs
        exact F1
    · by_cases hsp : (' ') ∈ email
      · simp [hdd, hsp] at hs
        subst hs
        exact F2
      · by_cases hddl : containsSub ['.', '.'] l = true
        · simp [hdd, hsp, hddl, collapseDots] at hs
          subst hs
          exact F3
        · simp [hdd, hsp, hddl] at hs

/-- Witness for C7: the address `x..y@gmail.com` (consecutive-dot repair
fires but keeps the domain). -/
theorem C7_popular_domain_not_corrected_witness :
    (∀ s, (checkAndSuggest (str "x..y@gmail.com")).suggestion = some s →
      (splitChar '@' s).get? 1 = some (str "gmail.com")) ∧
    (typoStage defaultOptions (str "x..y@gmail.com")
        (initResult (str "x..y@gmail.com"))).suggestion =
      (initResult (str "x..y@gmail.com")).suggestion :=
  C7_popular_domain_not_corrected defaultOptions (str "x..y@gmail.com")
    (str "gmail.com") (initResult (str "x..y@gmail.com"))
    (by decide) (by decide)

/-- `validate` always echoes its input in the `input` field. -/
theorem validate_input_echo (env : Env) (o : Options) (email : Str) :
    (validate env o email).input = email := by
  unfold validate
  rcases validateGo_cases env o email with ⟨x, hgo, hi, _⟩ | ⟨p, r9, hgo, _, hr9⟩
  · rw [hgo]
    exact hi
  · rw [hgo]
    obtain ⟨hfi, _, _, _⟩ := finalizeStatus_fields o p r9
    exact hfi.trans hr9

/-- With caching off, the bulk runner validates every chunk element in
order, so the inputs of its results are the flattened chunk list. -/
theorem runChunks_map_input (env : Env) (o : Options) (bo : BulkOptions)
    (hcache : bo.enableCache = false) :
    ∀ (chunks : List (List Str)) (cacheL : List (Str × ValidationResult)),
      (runChunks env o bo chunks cacheL).map ValidationResult.input =
        chunks.flatten := by
  intro chunks
  induction chunks with
  | nil => intro cacheL; rfl
  | cons chunk rest ih =>
    intro cacheL
    simp [runChunks, processChunk, hcache, ih, validate_input_echo]
    have hfun : (ValidationResult.input ∘ fun e => validate env o e) =
        (fun e : Str => e) := funext fun e => validate_input_echo env o e
    rw [hfun]
    simp

/-- Chunking with a positive size partitions the list (fuel version). -/
theorem chunksOfAux_flatten (bs : Nat) (hbs : 0 < bs) :
    ∀ (fuel : Nat) (l : List Str), l.length ≤ fuel →
      (chunksOfAux bs fuel l).flatten = l := by
  intro fuel
  induction fuel with
  | zero =>
    intro l hl
    have hnil : l = [] := List.eq_nil_of_length_eq_zero (Nat.le_zero.mp hl)
    subst hnil
    rfl
  | succ fuel ih =>
    intro l hl
    cases l with
    | nil => rfl
    | cons x xs =>
      simp only [chunksOfAux]
      rw [if_neg (Nat.pos_iff_ne_zero.mp hbs), List.flatten_cons,
          ih ((x :: xs).drop bs) ?hlen, List.take_append_drop]
      case hlen =>
        rw [List.length_drop]
        simp only [List.length_cons] at hl ⊢
        omega

/-- Chunking with a positive size partitions the list. -/
theorem chunksOf_flatten (bs : Nat) (hbs : 0 < bs) (l : List Str) :
    (chunksOf bs l).flatten = l :=
  chunksOfAux_flatten bs hbs l.length l (Nat.le_refl _)

/-- C6 fails as stated: with deduplication on, the result inputs are the
lowercased addresses, not the deduplicated originals (`X@y.com` comes back
as `x@y.com`); with deduplication off, a cache hit keyed on the lowercased
address returns the earlier variant's result (`a@y.com` comes back as
`A@y.com`), so `results[i].input` is not exactly `inputs[i]` either. -/
theorem C6_counterexample :
    ((validateBatch failEnv defaultOptions { batchSize := 10 } []
        [str "X@y.com"]).results.map ValidationResult.input) ≠
      [str "X@y.com"] ∧
    ((validateBatch failEnv defaultOptions
        { skipDuplicates := false, batchSize := 1 } []
        [str "A@y.com", str "a@y.com"]).results.map ValidationResult.input) ≠
      [str "A@y.com", str "a@y.com"] := by
  decide

/-- C6 (amended): with caching disabled and a positive batch size, bulk
validation preserves order exactly — the result inputs are the
case-insensitively deduplicated *lowercased* inputs when deduplication is
on, and exactly the inputs when it is off. -/
theorem C6_bulk_order_amended (env : Env) (o : Options) (bo : BulkOptions)
    (cache0 : List (Str × ValidationResult)) (emails : List Str)
    (hbs : 0 < bo.batchSize) (hcache : bo.enableCache = false) :
    (validateBatch env o bo cache0 emails).results.map ValidationResult.input =
      (if bo.skipDuplicates = true then jsSetDedup (emails.map jsToLower)
       else emails) := by
  simp only [validateBatch]
  rw [runChunks_map_input env o bo hcache, chunksOf_flatten _ hbs]

/-- Witness for the amended C6: three addresses, one duplicate modulo
case, chunked in pairs. -/
theorem C6_bulk_order_amended_witness :
    (validateBatch failEnv defaultOptions
        { enableCache := false, batchSize := 2 } []
        [str "A@y.com", str "a@y.com", str "b@z.io"]).results.map
      ValidationResult.input =
      (if ({ enableCache := false, batchSize := 2 } : BulkOptions).skipDuplicates
          = true
       then jsSetDedup ([str "A@y.com", str "a@y.com", str "b@z.io"].map jsToLower)
       else [str "A@y.com", str "a@y.com", str "b@z.io"]) :=
  C6_bulk_order_amended failEnv defaultOptions
    { enableCache := false, batchSize := 2 } []
    [str "A@y.com", str "a@y.com", str "b@z.io"] (by decide) rfl
